import Mathlib

/-!
Verification development for the Euchre multi-room server
(`WebSocketHibernationServer`).  The definitions below are a shallow
embedding of the server's rules kernel, state model and game state
machine.  Wall-clock fields (`createdAt`, `updatedAt`) and the delivery
of `info` frames are omitted: they carry no game state.  The PRNG-driven
deck shuffle is modelled by passing the shuffled deck explicitly; the
step relation constrains it to be a full 24-card euchre deck, which is
exactly the image of `shuffleDeck(createDeck())`.
-/

namespace Euchre

/-- The four card suits. -/
inductive Suit where
  | clubs
  | diamonds
  | hearts
  | spades
deriving DecidableEq

/-- The six euchre ranks 9, 10, J, Q, K, A. -/
inductive Rank where
  | r9
  | r10
  | rJ
  | rQ
  | rK
  | rA
deriving DecidableEq

/-- A card; `id` is globally unique per deal. -/
structure Card where
  id : String
  suit : Suit
  rank : Rank
deriving DecidableEq

/-- Team identifiers; even seats are team 0, odd seats team 1. -/
inductive TeamId where
  | team0
  | team1
deriving DecidableEq

structure PlayerState where
  id : String
  name : String
  seatIndex : Nat
  connected : Bool
  isBot : Bool
  hand : List Card
deriving DecidableEq

structure TrickPlay where
  playerId : String
  card : Card
deriving DecidableEq

structure CompletedTrick where
  index : Nat
  winnerSeat : Nat
  cards : List TrickPlay
deriving DecidableEq

structure HandSummary where
  makerTeam : TeamId
  makerTricks : Nat
  defenderTricks : Nat
  pointsAwarded : Nat
  awardedTo : TeamId
deriving DecidableEq

inductive Phase where
  | biddingRound1
  | biddingRound2
  | dealerDiscard
  | playing
  | handOver
  | gameOver
deriving DecidableEq

structure EuchreGameState where
  phase : Phase
  dealerSeat : Nat
  turnSeat : Nat
  upcard : Option Card
  kitty : List Card
  blockedSuit : Option Suit
  trump : Option Suit
  makerTeam : Option TeamId
  calledByPlayerId : Option String
  goingAlonePlayerId : Option String
  sittingOutSeat : Option Nat
  currentTrick : List TrickPlay
  completedTricks : List CompletedTrick
  trickIndex : Nat
  handSummary : Option HandSummary
  handNumber : Nat
deriving DecidableEq

inductive BotDifficulty where
  | easy
  | medium
  | hard
deriving DecidableEq

inductive RoomStatus where
  | waiting
  | playing
deriving DecidableEq

structure Score where
  team0 : Nat
  team1 : Nat
deriving DecidableEq

structure EuchreRoom where
  name : String
  password : Option String
  creatorToken : String
  creatorPlayerId : Option String
  maxPlayers : Nat
  status : RoomStatus
  botDifficulty : BotDifficulty
  botCount : Nat
  score : Score
  players : List PlayerState
  game : Option EuchreGameState
deriving DecidableEq

def ROOM_SIZE : Nat := 4

def TARGET_SCORE : Nat := 10

/-- Strip leading and trailing whitespace from a character list (the
`String.prototype.trim` of JS, over the characters of the string). -/
def trimChars (cs : List Char) : List Char :=
  ((cs.dropWhile Char.isWhitespace).reverse.dropWhile Char.isWhitespace).reverse

/-- `sanitizeRoomName`: `(roomName ?? "").trim().slice(0, 40)`. -/
def sanitizeRoomName (roomName : Option String) : String :=
  String.mk ((trimChars (roomName.getD "").data).take 40)

/-- `sanitizePlayerName`: `(name ?? "").trim().slice(0, 24)`. -/
def sanitizePlayerName (name : Option String) : String :=
  String.mk ((trimChars (name.getD "").data).take 24)

/-- Seat parity determines the team. -/
def getTeamForSeat (seatIndex : Nat) : TeamId :=
  if seatIndex % 2 = 0 then TeamId.team0 else TeamId.team1

def nextSeat (seatIndex : Nat) : Nat :=
  (seatIndex + 1) % ROOM_SIZE

def sameColorSuit (suit : Suit) : Suit :=
  match suit with
  | .clubs => .spades
  | .spades => .clubs
  | .hearts => .diamonds
  | .diamonds => .hearts

def isRightBower (card : Card) (trump : Suit) : Bool :=
  card.rank == Rank.rJ && card.suit == trump

def isLeftBower (card : Card) (trump : Suit) : Bool :=
  card.rank == Rank.rJ && card.suit == sameColorSuit trump

def effectiveSuit (card : Card) (trump : Suit) : Suit :=
  if isLeftBower card trump then trump else card.suit

/-- `rankStrength` of a card given optional trump and lead suit. -/
def rankStrength (card : Card) (trump : Option Suit) (leadSuit : Option Suit) : Nat :=
  match trump, leadSuit with
  | some tr, some ld =>
    let cardSuit := effectiveSuit card tr
    if isRightBower card tr then 100
    else if isLeftBower card tr then 99
    else if cardSuit = tr then
      match card.rank with
      | .rA => 98
      | .rK => 97
      | .rQ => 96
      | .r10 => 95
      | _ => 94
    else if cardSuit = ld then
      match card.rank with
      | .rA => 60
      | .rK => 59
      | .rQ => 58
      | .rJ => 57
      | .r10 => 56
      | _ => 55
    else 0
  | _, _ => 0

/-- All 24 suit/rank faces of the euchre deck. -/
def allFaces : List (Suit × Rank) :=
  [Suit.clubs, Suit.diamonds, Suit.hearts, Suit.spades].flatMap (fun s =>
    [Rank.r9, Rank.r10, Rank.rJ, Rank.rQ, Rank.rK, Rank.rA].map (fun r => (s, r)))

/-- A deck is full when it is a permutation of `createDeck()`: 24 cards,
each suit/rank face occurring exactly once. -/
def isFullDeck (deck : List Card) : Bool :=
  deck.length == 24 &&
    allFaces.all (fun f =>
      (deck.countP (fun c => c.suit == f.1 && c.rank == f.2)) == 1)

/-- Replace the first element satisfying `pred` (the JS `find`-then-mutate
idiom) by its image under `f`. -/
def updateFirst (pred : PlayerState → Bool) (f : PlayerState → PlayerState) :
    List PlayerState → List PlayerState
  | [] => []
  | p :: ps => if pred p then f p :: ps else p :: updateFirst pred f ps

/-- Remove the first card with the given id (`findIndex` + `splice(i, 1)`). -/
def removeFirstCard (cardId : String) : List Card → List Card
  | [] => []
  | c :: cs => if c.id == cardId then cs else c :: removeFirstCard cardId cs

def getSeatPlayer (room : EuchreRoom) (seatIndex : Nat) : Option PlayerState :=
  room.players.find? (fun p => p.seatIndex == seatIndex)

def getPlayerById (room : EuchreRoom) (playerId : String) : Option PlayerState :=
  room.players.find? (fun p => p.id == playerId)

def isSeatSittingOut (room : EuchreRoom) (seatIndex : Nat) : Bool :=
  match room.game with
  | none => false
  | some g =>
    match g.sittingOutSeat with
    | none => false
    | some s => s == seatIndex

def isPlayerActiveForPlay (room : EuchreRoom) (player : PlayerState) : Bool :=
  match room.game with
  | none => true
  | some g =>
    if g.phase = Phase.playing then !(isSeatSittingOut room player.seatIndex)
    else true

def nextActiveSeat (room : EuchreRoom) (fromSeat : Nat) : Nat :=
  match (List.range ROOM_SIZE).find?
      (fun i => !(isSeatSittingOut room ((fromSeat + i + 1) % ROOM_SIZE))) with
  | some i => (fromSeat + i + 1) % ROOM_SIZE
  | none => nextSeat fromSeat

def activeSeatCountForPlay (room : EuchreRoom) : Nat :=
  match room.game with
  | none => ROOM_SIZE
  | some g =>
    match g.sittingOutSeat with
    | none => ROOM_SIZE
    | some _ => ROOM_SIZE - 1

def getLegalPlays (room : EuchreRoom) (playerId : String) : List String :=
  match room.game with
  | none => []
  | some g =>
    match getPlayerById room playerId with
    | none => []
    | some player =>
      if g.turnSeat ≠ player.seatIndex then []
      else if !(isPlayerActiveForPlay room player) then []
      else if g.phase = Phase.dealerDiscard then player.hand.map (fun c => c.id)
      else if g.phase ≠ Phase.playing then []
      else
        match g.trump with
        | none => player.hand.map (fun c => c.id)
        | some trump =>
          match g.currentTrick with
          | [] => player.hand.map (fun c => c.id)
          | lead :: _ =>
            let leadSuit := effectiveSuit lead.card trump
            let followSuitCards :=
              player.hand.filter (fun c => effectiveSuit c trump == leadSuit)
            if followSuitCards.isEmpty then player.hand.map (fun c => c.id)
            else followSuitCards.map (fun c => c.id)

/-- Running best play of `resolveTrickWinner`: the accumulator keeps the
current winner and its score, updated on a strictly greater score. -/
def bestPlay (trump : Suit) (leadSuit : Suit) (acc : TrickPlay × Nat) :
    List TrickPlay → TrickPlay × Nat
  | [] => acc
  | play :: rest =>
    let score := rankStrength play.card (some trump) (some leadSuit)
    bestPlay trump leadSuit (if acc.2 < score then (play, score) else acc) rest

/-- `resolveTrickWinner`: id of the player whose card has the highest rank
strength.  The empty case never occurs in the server (the code indexes
`cards[0]` unconditionally). -/
def resolveTrickWinner (cards : List TrickPlay) (trump : Suit) : String :=
  match cards with
  | [] => ""
  | c0 :: rest =>
    let leadSuit := effectiveSuit c0.card trump
    (bestPlay trump leadSuit (c0, rankStrength c0.card (some trump) (some leadSuit)) rest).1.playerId

/-- Deal 5 cards to each player in players-array order: player `i`
receives `deck[5i .. 5i+5)`, as the sequential `splice(0, 5)` calls do. -/
def dealHandsFrom (deck : List Card) (i : Nat) : List PlayerState → List PlayerState
  | [] => []
  | p :: ps => { p with hand := (deck.drop (5 * i)).take 5 } :: dealHandsFrom deck (i + 1) ps

def dealHands (deck : List Card) (players : List PlayerState) : List PlayerState :=
  dealHandsFrom deck 0 players

def addScore (s : Score) (team : TeamId) (points : Nat) : Score :=
  match team with
  | .team0 => { s with team0 := s.team0 + points }
  | .team1 => { s with team1 := s.team1 + points }

/-- `startNewHand`, with the shuffled deck and the resolved dealer seat
passed explicitly (the code draws them from the PRNG or the previous
hand). -/
def startNewHandWith (deck : List Card) (activeDealerSeat : Nat)
    (resetScore : Bool) (room : EuchreRoom) : EuchreRoom :=
  if room.players.length ≠ ROOM_SIZE then room
  else
    let score := if resetScore then { team0 := 0, team1 := 0 } else room.score
    let players := dealHands deck room.players
    let upcard := (deck.drop 20).head?
    let kitty := deck.drop 21
    { room with
      score := score
      status := RoomStatus.playing
      players := players
      game := some {
        phase := Phase.biddingRound1
        dealerSeat := activeDealerSeat
        turnSeat := nextSeat activeDealerSeat
        upcard := upcard
        kitty := kitty
        blockedSuit := none
        trump := none
        makerTeam := none
        calledByPlayerId := none
        goingAlonePlayerId := none
        sittingOutSeat := none
        currentTrick := []
        completedTricks := []
        trickIndex := 0
        handSummary := none
        handNumber := (match room.game with | some g => g.handNumber | none => 0) + 1 } }

def startPlayingPhase (room : EuchreRoom) : EuchreRoom :=
  match room.game with
  | none => room
  | some g =>
    if g.trump = none ∨ g.makerTeam = none ∨ g.calledByPlayerId = none then room
    else
      { room with
        status := RoomStatus.playing
        game := some { g with
          phase := Phase.playing
          turnSeat := nextActiveSeat room g.dealerSeat
          currentTrick := []
          completedTricks := []
          trickIndex := 0
          handSummary := none } }

/-- The `awardedTo`/`pointsAwarded` computation of `finalizeHand`:
makers get 1 point for 3-4 tricks, 2 for a sweep, 4 for a loner sweep;
otherwise the defenders get 2 (euchre). -/
def awardForHand (makerTeam : TeamId) (makerTricks : Nat) (alone : Bool) : TeamId × Nat :=
  if makerTricks ≥ 3 then
    (makerTeam,
      if makerTricks = 5 && alone then 4
      else if makerTricks = 5 then 2 else 1)
  else (if makerTeam = TeamId.team0 then TeamId.team1 else TeamId.team0, 2)

/-- The `winningTeam` computation of `finalizeHand`. -/
def winningTeamOf (score : Score) : Option TeamId :=
  if score.team0 ≥ TARGET_SCORE then some .team0
  else if score.team1 ≥ TARGET_SCORE then some .team1
  else none

/-- The phase `finalizeHand` leaves the game in. -/
def phaseAfterHand (score : Score) : Phase :=
  match winningTeamOf score with
  | none => Phase.handOver
  | some _ => Phase.gameOver

/-- `finalizeHand`.  `defenderTricks` is `ROOM_SIZE + 1 - makerTricks`;
the `goingAlonePlayerId` truthiness test becomes `isSome` (player ids are
non-empty strings). -/
def finalizeHand (room : EuchreRoom) : EuchreRoom :=
  match room.game with
  | none => room
  | some g =>
    match g.makerTeam with
    | none => room
    | some makerTeam =>
      let makerTricks :=
        (g.completedTricks.filter (fun t => getTeamForSeat t.winnerSeat == makerTeam)).length
      let defenderTricks := ROOM_SIZE + 1 - makerTricks
      let awarded : TeamId × Nat :=
        awardForHand makerTeam makerTricks g.goingAlonePlayerId.isSome
      let score := addScore room.score awarded.1 awarded.2
      let summary : HandSummary := {
        makerTeam := makerTeam
        makerTricks := makerTricks
        defenderTricks := defenderTricks
        pointsAwarded := awarded.2
        awardedTo := awarded.1 }
      { room with
        score := score
        game := some { g with
          handSummary := some summary
          phase := phaseAfterHand score } }

/-- `handlePass`.  A missing game returns silently (`if (!game) return`).
The redeal deck used when all four players pass in round two is passed
explicitly. -/
def handlePass (redealDeck : List Card) (room : EuchreRoom) (playerId : String) :
    Except String EuchreRoom :=
  match room.game with
  | none => .ok room
  | some g =>
    match getSeatPlayer room g.turnSeat with
    | none => .error "Not your turn."
    | some currentPlayer =>
      if currentPlayer.id ≠ playerId then .error "Not your turn."
      else if g.phase = Phase.biddingRound1 then
        let turnAfterPass := nextSeat g.turnSeat
        if turnAfterPass = nextSeat g.dealerSeat then
          .ok { room with game := some { g with
            phase := Phase.biddingRound2
            turnSeat := nextSeat g.dealerSeat
            blockedSuit := g.upcard.map (fun c => c.suit) } }
        else
          .ok { room with game := some { g with turnSeat := turnAfterPass } }
      else if g.phase = Phase.biddingRound2 then
        let turnAfterPass := nextSeat g.turnSeat
        if turnAfterPass = nextSeat g.dealerSeat then
          .ok (startNewHandWith redealDeck (nextSeat g.dealerSeat) false room)
        else
          .ok { room with game := some { g with turnSeat := turnAfterPass } }
      else .error "Pass is not available right now."

def handleOrderUp (room : EuchreRoom) (playerId : String) (alone : Bool) :
    Except String EuchreRoom :=
  match room.game with
  | none => .error "Order up is only available in bidding round one."
  | some g =>
    if g.phase ≠ Phase.biddingRound1 then
      .error "Order up is only available in bidding round one."
    else
      match getSeatPlayer room g.turnSeat with
      | none => .error "Not your turn."
      | some currentPlayer =>
        if currentPlayer.id ≠ playerId then .error "Not your turn."
        else
          match g.upcard with
          | none => .error "Missing upcard."
          | some upcard =>
            match getSeatPlayer room g.dealerSeat with
            | none => .error "Missing dealer."
            | some dealer =>
              let makerTeam := getTeamForSeat currentPlayer.seatIndex
              let players := updateFirst (fun p => p.seatIndex == g.dealerSeat)
                (fun p => { p with hand := p.hand ++ [upcard] }) room.players
              .ok { room with
                players := players
                game := some { g with
                  phase := Phase.dealerDiscard
                  trump := some upcard.suit
                  makerTeam := some makerTeam
                  calledByPlayerId := some playerId
                  goingAlonePlayerId := if alone then some playerId else none
                  sittingOutSeat :=
                    if alone then
                      (room.players.find? (fun p =>
                        getTeamForSeat p.seatIndex == makerTeam && p.id != playerId)).map
                        (fun p => p.seatIndex)
                    else none
                  turnSeat := dealer.seatIndex
                  currentTrick := []
                  completedTricks := []
                  trickIndex := 0 } }

def handleChooseTrump (room : EuchreRoom) (playerId : String)
    (suit : Option Suit) (alone : Bool) : Except String EuchreRoom :=
  match room.game with
  | none => .error "Choose trump is only available in bidding round two."
  | some g =>
    if g.phase ≠ Phase.biddingRound2 then
      .error "Choose trump is only available in bidding round two."
    else
      match getSeatPlayer room g.turnSeat with
      | none => .error "Not your turn."
      | some currentPlayer =>
        if currentPlayer.id ≠ playerId then .error "Not your turn."
        else
          match suit with
          | none => .error "Trump suit is required."
          | some suit =>
            if g.blockedSuit = some suit then
              .error "You cannot choose the turned-down suit."
            else
              let makerTeam := getTeamForSeat currentPlayer.seatIndex
              .ok (startPlayingPhase { room with
                game := some { g with
                  trump := some suit
                  makerTeam := some makerTeam
                  calledByPlayerId := some playerId
                  goingAlonePlayerId := if alone then some playerId else none
                  sittingOutSeat :=
                    if alone then
                      (room.players.find? (fun p =>
                        getTeamForSeat p.seatIndex == makerTeam && p.id != playerId)).map
                        (fun p => p.seatIndex)
                    else none } })

def handleDiscard (room : EuchreRoom) (playerId : String) (cardId : Option String) :
    Except String EuchreRoom :=
  match room.game with
  | none => .error "Discard is only available after an order up."
  | some g =>
    if g.phase ≠ Phase.dealerDiscard then
      .error "Discard is only available after an order up."
    else
      match getSeatPlayer room g.turnSeat with
      | none => .error "Only the dealer can discard now."
      | some currentPlayer =>
        if currentPlayer.id ≠ playerId then .error "Only the dealer can discard now."
        else
          match cardId with
          | none => .error "Card id is required."
          | some cardId =>
            match currentPlayer.hand.find? (fun c => c.id == cardId) with
            | none => .error "Card not found in your hand."
            | some _ =>
              let players := updateFirst (fun p => p.seatIndex == g.turnSeat)
                (fun p => { p with hand := removeFirstCard cardId p.hand }) room.players
              .ok (startPlayingPhase { room with players := players })

/-- `handlePlayCard`.  The two throws that the code performs after the hand
mutation (`Missing trump suit.`, `Unable to resolve trick winner.`) are
modelled as plain errors; both are unreachable, since during the playing
phase trump is set and every trick play belongs to a seated player. -/
def handlePlayCard (room : EuchreRoom) (playerId : String) (cardId : Option String) :
    Except String EuchreRoom :=
  match room.game with
  | none => .error "Cards can only be played during the play phase."
  | some g =>
    if g.phase ≠ Phase.playing then
      .error "Cards can only be played during the play phase."
    else
      match getSeatPlayer room g.turnSeat with
      | none => .error "Not your turn."
      | some currentPlayer =>
        if currentPlayer.id ≠ playerId then .error "Not your turn."
        else if !(isPlayerActiveForPlay room currentPlayer) then
          .error "This player is sitting out this hand."
        else
          match cardId with
          | none => .error "Card id is required."
          | some cardId =>
            if !((getLegalPlays room playerId).contains cardId) then
              .error "You must follow suit when possible."
            else
              match currentPlayer.hand.find? (fun c => c.id == cardId) with
              | none => .error "Card not found in your hand."
              | some card =>
                let players := updateFirst (fun p => p.seatIndex == g.turnSeat)
                  (fun p => { p with hand := removeFirstCard cardId p.hand }) room.players
                let trick := g.currentTrick ++ [{ playerId := playerId, card := card }]
                let g1 := { g with currentTrick := trick }
                let room1 := { room with players := players, game := some g1 }
                if trick.length < activeSeatCountForPlay room1 then
                  .ok { room1 with game := some { g1 with
                    turnSeat := nextActiveSeat room1 g.turnSeat } }
                else
                  match g.trump with
                  | none => .error "Missing trump suit."
                  | some trump =>
                    match room1.players.find? (fun p => p.id == resolveTrickWinner trick trump) with
                    | none => .error "Unable to resolve trick winner."
                    | some winner =>
                      let g2 := { g1 with
                        currentTrick := []
                        completedTricks := g.completedTricks ++
                          [{ index := g.trickIndex, winnerSeat := winner.seatIndex, cards := trick }] }
                      if g.trickIndex ≥ 4 then
                        .ok (finalizeHand { room1 with game := some g2 })
                      else
                        .ok { room1 with game := some { g2 with
                          trickIndex := g.trickIndex + 1
                          turnSeat := winner.seatIndex } }

def handleStartNextHand (deck : List Card) (room : EuchreRoom) :
    Except String EuchreRoom :=
  match room.game with
  | none => .error "Need four players to start the next hand."
  | some g =>
    if room.players.length ≠ ROOM_SIZE then
      .error "Need four players to start the next hand."
    else if g.phase ≠ Phase.handOver then
      .error "Next hand is only available after a hand ends."
    else
      .ok (startNewHandWith deck (nextSeat g.dealerSeat) false room)

def handleRestartMatch (deck : List Card) (room : EuchreRoom) :
    Except String EuchreRoom :=
  match room.game with
  | none => .error "Need four players to restart the match."
  | some g =>
    if room.players.length ≠ ROOM_SIZE then
      .error "Need four players to restart the match."
    else if g.phase ≠ Phase.gameOver then
      .error "Restart is only available when the match is over."
    else
      .ok (startNewHandWith deck (nextSeat g.dealerSeat) true room)

def assertCreator (room : EuchreRoom) (playerId : String) : Except String Unit :=
  if room.creatorPlayerId ≠ some playerId then
    .error "Only the room creator can do that."
  else .ok ()

/-- `handleAddBot`; the fresh bot id and generated bot name are passed
explicitly (`crypto.randomUUID()` / `nextBotName`). -/
def handleAddBot (room : EuchreRoom) (playerId botId botName : String) :
    Except String EuchreRoom :=
  match assertCreator room playerId with
  | .error e => .error e
  | .ok _ =>
    if room.status ≠ RoomStatus.waiting ∨ room.game ≠ none then
      .error "Bots can only be changed in lobby."
    else if room.players.length ≥ ROOM_SIZE then
      .error "Room is already full."
    else
      match (List.range ROOM_SIZE).find?
          (fun seat => !(room.players.any (fun p => p.seatIndex == seat))) with
      | none => .error "No seat available."
      | some seatIndex =>
        let players := room.players ++
          [{ id := botId, name := botName, seatIndex := seatIndex,
             connected := true, isBot := true, hand := [] }]
        .ok { room with
          players := players
          botCount := (players.filter (fun p => p.isBot)).length }

/-- `handleRemoveBot`: remove the bot with the largest seat index (the
first entry of the descending stable sort over the bots). -/
def handleRemoveBot (room : EuchreRoom) (playerId : String) :
    Except String EuchreRoom :=
  match assertCreator room playerId with
  | .error e => .error e
  | .ok _ =>
    if room.status ≠ RoomStatus.waiting ∨ room.game ≠ none then
      .error "Bots can only be changed in lobby."
    else
      match room.players.filter (fun p => p.isBot) with
      | [] => .error "No bots to remove."
      | b :: bs =>
        let bot := bs.foldl (fun best p => if best.seatIndex < p.seatIndex then p else best) b
        let players := room.players.filter (fun p => p.id ≠ bot.id)
        .ok { room with
          players := players
          botCount := (players.filter (fun p => p.isBot)).length }

/-- `parseSeatIndex` restricted to the integral case: the client field is
a JSON number; NaN/fractional handling collapses to the range check. -/
def parseSeatIndex (value : Option Nat) : Option Nat :=
  match value with
  | none => none
  | some seat => if seat < ROOM_SIZE then some seat else none

def handleSetSeat (room : EuchreRoom) (playerId : String)
    (targetPlayerId : Option String) (requestedSeatIndex : Option Nat) :
    Except String EuchreRoom :=
  match assertCreator room playerId with
  | .error e => .error e
  | .ok _ =>
    if room.status ≠ RoomStatus.waiting ∨ room.game ≠ none then
      .error "Teams can only be configured in lobby."
    else
      match targetPlayerId with
      | none => .error "Target player is required."
      | some targetPlayerId =>
        match parseSeatIndex requestedSeatIndex with
        | none => .error "Invalid seat index."
        | some seatIndex =>
          match getPlayerById room targetPlayerId with
          | none => .error "Target player not found."
          | some target =>
            let occupant := getSeatPlayer room seatIndex
            let currentSeat := target.seatIndex
            let players1 := updateFirst (fun p => p.id == targetPlayerId)
              (fun p => { p with seatIndex := seatIndex }) room.players
            let players2 :=
              match occupant with
              | some occ =>
                if occ.id ≠ target.id then
                  updateFirst (fun p => p.id == occ.id)
                    (fun p => { p with seatIndex := currentSeat }) players1
                else players1
              | none => players1
            .ok { room with players := players2 }

def handleSetBotDifficulty (room : EuchreRoom) (playerId : String)
    (botDifficulty : Option BotDifficulty) : Except String EuchreRoom :=
  match assertCreator room playerId with
  | .error e => .error e
  | .ok _ =>
    if room.status ≠ RoomStatus.waiting ∨ room.game ≠ none then
      .error "Difficulty can only be changed in lobby."
    else
      match botDifficulty with
      | none => .error "Bot difficulty is required."
      | some d => .ok { room with botDifficulty := d }

/-- `handleStartRoom`; the shuffled deck and the randomly drawn first
dealer seat are passed explicitly. -/
def handleStartRoom (deck : List Card) (dealerSeat : Nat) (room : EuchreRoom)
    (playerId : String) : Except String EuchreRoom :=
  match assertCreator room playerId with
  | .error e => .error e
  | .ok _ =>
    if room.status ≠ RoomStatus.waiting ∨ room.game ≠ none then
      .error "Room already started."
    else if room.players.length ≠ ROOM_SIZE then
      .error "Need exactly four players/bots before starting."
    else
      .ok (startNewHandWith deck dealerSeat false room)

/-! ### Personalized snapshots (`buildClientState`) -/

/-- Public entry for each player in a snapshot: the hand is exposed as a
count only. -/
structure PlayerPublicView where
  id : String
  name : String
  seatIndex : Nat
  connected : Bool
  isBot : Bool
  handCount : Nat
deriving DecidableEq

/-- The recipient block of a snapshot, carrying the full hand. -/
structure YouView where
  id : String
  name : String
  seatIndex : Nat
  isCreator : Bool
  creatorToken : Option String
  hand : List Card
deriving DecidableEq

structure TrickPlayView where
  playerId : String
  playerName : String
  seatIndex : Int
  card : Card
deriving DecidableEq

structure GameView where
  phase : Phase
  dealerSeat : Nat
  turnSeat : Nat
  upcard : Option Card
  blockedSuit : Option Suit
  trump : Option Suit
  trickIndex : Nat
  currentTrick : List TrickPlayView
  completedTricks : List CompletedTrick
  handSummary : Option HandSummary
  makerTeam : Option TeamId
  calledByPlayerId : Option String
  goingAlonePlayerId : Option String
  sittingOutSeat : Option Nat
  calledByName : Option String
  handNumber : Nat
deriving DecidableEq

structure ClientStateView where
  roomName : String
  maxPlayers : Nat
  status : RoomStatus
  botDifficulty : BotDifficulty
  botCount : Nat
  score : Score
  players : List PlayerPublicView
  you : Option YouView
  game : Option GameView
  legalPlays : List String
  targetScore : Nat
deriving DecidableEq

def isCreator (room : EuchreRoom) (viewerPlayerId : String) : Bool :=
  room.creatorPlayerId == some viewerPlayerId

/-- `buildClientState`: the personalized snapshot for one viewer.  The
players list is sorted ascending by seat (a stable sort, as in JS). -/
def buildClientState (room : EuchreRoom) (viewerPlayerId : String) : ClientStateView :=
  let me := room.players.find? (fun p => p.id == viewerPlayerId)
  let legalPlays := match me with
    | some m => getLegalPlays room m.id
    | none => []
  let viewerIsCreator := isCreator room viewerPlayerId
  { roomName := room.name
    maxPlayers := room.maxPlayers
    status := room.status
    botDifficulty := room.botDifficulty
    botCount := room.botCount
    score := room.score
    players := (List.insertionSort (fun a b => a.seatIndex ≤ b.seatIndex) room.players).map
      (fun p => { id := p.id, name := p.name, seatIndex := p.seatIndex,
                  connected := p.connected, isBot := p.isBot,
                  handCount := p.hand.length })
    you := me.map (fun m =>
      { id := m.id, name := m.name, seatIndex := m.seatIndex,
        isCreator := viewerIsCreator,
        creatorToken := if viewerIsCreator then some room.creatorToken else none,
        hand := m.hand })
    game := room.game.map (fun g =>
      { phase := g.phase
        dealerSeat := g.dealerSeat
        turnSeat := g.turnSeat
        upcard := g.upcard
        blockedSuit := g.blockedSuit
        trump := g.trump
        trickIndex := g.trickIndex
        currentTrick := g.currentTrick.map (fun play =>
          let player := room.players.find? (fun p => p.id == play.playerId)
          { playerId := play.playerId
            playerName := match player with | some p => p.name | none => "Unknown"
            seatIndex := match player with | some p => (p.seatIndex : Int) | none => -1
            card := play.card })
        completedTricks := g.completedTricks
        handSummary := g.handSummary
        makerTeam := g.makerTeam
        calledByPlayerId := g.calledByPlayerId
        goingAlonePlayerId := g.goingAlonePlayerId
        sittingOutSeat := g.sittingOutSeat
        calledByName := match g.calledByPlayerId with
          | some cid => (room.players.find? (fun p => p.id == cid)).map (fun p => p.name)
          | none => none
        handNumber := g.handNumber })
    legalPlays := legalPlays
    targetScore := TARGET_SCORE }

/-- Every card value occurring anywhere in a snapshot: the recipient's
hand, the upcard, and the plays of the current and completed tricks.
`players` entries expose only `handCount : Nat`; `legalPlays` holds card
id strings, not cards. -/
def cardsInView (v : ClientStateView) : List Card :=
  (match v.you with | some y => y.hand | none => []) ++
    (match v.game with
     | some g =>
       (match g.upcard with | some c => [c] | none => []) ++
         g.currentTrick.map (fun p => p.card) ++
         (g.completedTricks.flatMap (fun t => t.cards.map (fun p => p.card)))
     | none => [])

/-! ### Wire protocol dispatch and the error path of `webSocketMessage` -/

structure SessionAttachment where
  sessionId : String
  roomName : String
  playerId : String
deriving DecidableEq

/-- A client `action` envelope (the `ping` envelope is handled before
dispatch and answered with `pong`). -/
inductive ClientAction where
  | pass
  | orderUp (alone : Bool)
  | chooseTrump (suit : Option Suit) (alone : Bool)
  | discard (cardId : Option String)
  | playCard (cardId : Option String)
  | startNextHand
  | restartMatch
  | addBot
  | removeBot
  | setSeat (targetPlayerId : Option String) (seatIndex : Option Nat)
  | setBotDifficulty (botDifficulty : Option BotDifficulty)
  | startRoom
deriving DecidableEq

/-- Environment inputs that the handlers draw from the PRNG: the shuffled
deck for any deal this action may trigger, the first dealer seat for
`start-room`, and the id/name minted for `add-bot`. -/
structure ActionContext where
  deck : List Card
  dealerSeat : Nat
  botId : String
  botName : String
deriving DecidableEq

/-- `handleAction`: dispatch of one action envelope to its handler. -/
def handleAction (ctx : ActionContext) (room : EuchreRoom) (playerId : String) :
    ClientAction → Except String EuchreRoom
  | .pass => handlePass ctx.deck room playerId
  | .orderUp alone => handleOrderUp room playerId alone
  | .chooseTrump suit alone => handleChooseTrump room playerId suit alone
  | .discard cardId => handleDiscard room playerId cardId
  | .playCard cardId => handlePlayCard room playerId cardId
  | .startNextHand => handleStartNextHand ctx.deck room
  | .restartMatch => handleRestartMatch ctx.deck room
  | .addBot => handleAddBot room playerId ctx.botId ctx.botName
  | .removeBot => handleRemoveBot room playerId
  | .setSeat target seat => handleSetSeat room playerId target seat
  | .setBotDifficulty d => handleSetBotDifficulty room playerId d
  | .startRoom => handleStartRoom ctx.deck ctx.dealerSeat room playerId

/-- A server-to-client frame. -/
inductive ServerFrame where
  | state (v : ClientStateView)
  | error (message : String)
  | pong
deriving DecidableEq

/-- The action path of `webSocketMessage`: on success the new room state
is broadcast to every session of the room; on a handler error a single
`{type:"error"}` frame goes back to the offending session and the room is
left untouched.  Frames are listed as (sessionId, frame). -/
def webSocketMessageModel (ctx : ActionContext) (sessions : List SessionAttachment)
    (room : EuchreRoom) (sender : SessionAttachment) (action : ClientAction) :
    EuchreRoom × List (String × ServerFrame) :=
  match handleAction ctx room sender.playerId action with
  | .ok room1 =>
    (room1,
      (sessions.filter (fun s => s.roomName == room.name)).map
        (fun s => (s.sessionId, ServerFrame.state (buildClientState room1 s.playerId))))
  | .error e => (room, [(sender.sessionId, ServerFrame.error e)])

/-! ### Connection-side operations (`connectToRoom`, `webSocketClose`) -/

/-- Room creation on the first connect with `create=1`: the creating
player is seated at the first free seat (0) and becomes the creator. -/
def createRoom (name : String) (password : Option String) (creatorToken : String)
    (firstPlayerId firstPlayerName : String) (botDifficulty : BotDifficulty) :
    EuchreRoom :=
  { name := name
    password := password
    creatorToken := creatorToken
    creatorPlayerId := some firstPlayerId
    maxPlayers := ROOM_SIZE
    status := RoomStatus.waiting
    botDifficulty := botDifficulty
    botCount := 0
    score := { team0 := 0, team1 := 0 }
    players := [{ id := firstPlayerId, name := firstPlayerName, seatIndex := 0,
                  connected := true, isBot := false, hand := [] }]
    game := none }

/-- The new-player branch of `connectToRoom`: a fresh player joins at the
first free seat with an empty hand. -/
def joinNewPlayer (room : EuchreRoom) (playerId playerName : String) :
    Except String EuchreRoom :=
  if room.players.length ≥ room.maxPlayers then .error "Room is full."
  else
    match (List.range ROOM_SIZE).find?
        (fun seat => !(room.players.any (fun p => p.seatIndex == seat))) with
    | none => .error "No seat available."
    | some seatIndex =>
      .ok { room with players := room.players ++
        [{ id := playerId, name := playerName, seatIndex := seatIndex,
           connected := true, isBot := false, hand := [] }] }

/-- Reconnect (the existing-player branch of `connectToRoom`) or
disconnect (`webSocketClose`): flip the player's connected flag. -/
def setConnected (room : EuchreRoom) (playerId : String) (connected : Bool) :
    EuchreRoom :=
  let players := updateFirst (fun p => p.id == playerId)
    (fun p => { p with connected := connected }) room.players
  { room with players := players }

/-! ### The room step relation and reachability -/

/-- One room operation, labelled with the environment inputs it consumes. -/
inductive Act where
  | pass (deck : List Card) (pid : String)
  | orderUp (pid : String) (alone : Bool)
  | chooseTrump (pid : String) (suit : Option Suit) (alone : Bool)
  | discard (pid : String) (cardId : Option String)
  | playCard (pid : String) (cardId : Option String)
  | startNextHand (deck : List Card)
  | restartMatch (deck : List Card)
  | startRoom (deck : List Card) (dealerSeat : Nat) (pid : String)
  | addBot (pid botId botName : String)
  | removeBot (pid : String)
  | setSeat (pid : String) (targetId : Option String) (seatIndex : Option Nat)
  | setBotDifficulty (pid : String) (d : Option BotDifficulty)
  | joinNew (id name : String)
  | reconnect (pid : String)
  | disconnect (pid : String)
deriving DecidableEq

/-- `Step a r r'`: applying the room operation `a` to `r` succeeds and
produces `r'`.  Decks are constrained to full euchre decks (the image of
`shuffleDeck(createDeck())`), the random first dealer to a real seat, and
minted ids to fresh ones (`crypto.randomUUID()` collisions ignored). -/
inductive Step : Act → EuchreRoom → EuchreRoom → Prop where
  | pass {deck room pid room'} :
      isFullDeck deck = true →
      handlePass deck room pid = .ok room' →
      Step (.pass deck pid) room room'
  | orderUp {room pid alone room'} :
      handleOrderUp room pid alone = .ok room' →
      Step (.orderUp pid alone) room room'
  | chooseTrump {room pid suit alone room'} :
      handleChooseTrump room pid suit alone = .ok room' →
      Step (.chooseTrump pid suit alone) room room'
  | discard {room pid cardId room'} :
      handleDiscard room pid cardId = .ok room' →
      Step (.discard pid cardId) room room'
  | playCard {room pid cardId room'} :
      handlePlayCard room pid cardId = .ok room' →
      Step (.playCard pid cardId) room room'
  | startNextHand {deck room room'} :
      isFullDeck deck = true →
      handleStartNextHand deck room = .ok room' →
      Step (.startNextHand deck) room room'
  | restartMatch {deck room room'} :
      isFullDeck deck = true →
      handleRestartMatch deck room = .ok room' →
      Step (.restartMatch deck) room room'
  | startRoom {deck dealerSeat room pid room'} :
      isFullDeck deck = true →
      dealerSeat < ROOM_SIZE →
      handleStartRoom deck dealerSeat room pid = .ok room' →
      Step (.startRoom deck dealerSeat pid) room room'
  | addBot {room pid botId botName room'} :
      (∀ p ∈ room.players, p.id ≠ botId) →
      handleAddBot room pid botId botName = .ok room' →
      Step (.addBot pid botId botName) room room'
  | removeBot {room pid room'} :
      handleRemoveBot room pid = .ok room' →
      Step (.removeBot pid) room room'
  | setSeat {room pid targetId seatIndex room'} :
      handleSetSeat room pid targetId seatIndex = .ok room' →
      Step (.setSeat pid targetId seatIndex) room room'
  | setBotDifficulty {room pid d room'} :
      handleSetBotDifficulty room pid d = .ok room' →
      Step (.setBotDifficulty pid d) room room'
  | joinNew {room id name room'} :
      (∀ p ∈ room.players, p.id ≠ id) →
      joinNewPlayer room id name = .ok room' →
      Step (.joinNew id name) room room'
  | reconnect {room pid} :
      Step (.reconnect pid) room (setConnected room pid true)
  | disconnect {room pid} :
      Step (.disconnect pid) room (setConnected room pid false)

/-- Rooms reachable from creation by any sequence of room operations. -/
inductive Reachable : EuchreRoom → Prop where
  | init (name : String) (password : Option String) (creatorToken : String)
      (firstPlayerId firstPlayerName : String) (botDifficulty : BotDifficulty) :
      Reachable (createRoom name password creatorToken firstPlayerId firstPlayerName botDifficulty)
  | step {a r r'} : Reachable r → Step a r r' → Reachable r'

/-! ### A concrete reachable trace

A four-player room, dealer at seat 3, dealt from `deck1`.  Seat 0
receives the five top spades (right bower, left bower, A, K, Q), seat 1
the two remaining spades, seats 2 and 3 no spade-effective cards; the
upcard is the ace of hearts. -/

def deck1 : List Card := [
  ⟨"spades-J-1", .spades, .rJ⟩, ⟨"clubs-J-1", .clubs, .rJ⟩,
  ⟨"spades-A-1", .spades, .rA⟩, ⟨"spades-K-1", .spades, .rK⟩,
  ⟨"spades-Q-1", .spades, .rQ⟩,
  ⟨"spades-10-1", .spades, .r10⟩, ⟨"spades-9-1", .spades, .r9⟩,
  ⟨"clubs-9-1", .clubs, .r9⟩, ⟨"clubs-10-1", .clubs, .r10⟩,
  ⟨"clubs-Q-1", .clubs, .rQ⟩,
  ⟨"diamonds-9-1", .diamonds, .r9⟩, ⟨"diamonds-10-1", .diamonds, .r10⟩,
  ⟨"diamonds-J-1", .diamonds, .rJ⟩, ⟨"diamonds-Q-1", .diamonds, .rQ⟩,
  ⟨"diamonds-K-1", .diamonds, .rK⟩,
  ⟨"hearts-9-1", .hearts, .r9⟩, ⟨"hearts-10-1", .hearts, .r10⟩,
  ⟨"hearts-J-1", .hearts, .rJ⟩, ⟨"hearts-Q-1", .hearts, .rQ⟩,
  ⟨"hearts-K-1", .hearts, .rK⟩,
  ⟨"hearts-A-1", .hearts, .rA⟩,
  ⟨"clubs-K-1", .clubs, .rK⟩, ⟨"clubs-A-1", .clubs, .rA⟩,
  ⟨"diamonds-A-1", .diamonds, .rA⟩]

/-- Unwrap a successful handler result (all trace steps succeed). -/
def okOr (e : Except String EuchreRoom) (fallback : EuchreRoom) : EuchreRoom :=
  match e with
  | .ok r => r
  | .error _ => fallback

def room0 : EuchreRoom := createRoom "r1" none "tok" "p0" "Alice" .medium

def room1 : EuchreRoom := okOr (joinNewPlayer room0 "p1" "Bob") room0

def room2 : EuchreRoom := okOr (joinNewPlayer room1 "p2" "Cara") room1

def room3 : EuchreRoom := okOr (joinNewPlayer room2 "p3" "Dan") room2

def room4 : EuchreRoom := okOr (handleStartRoom deck1 3 room3 "p0") room3

def room5 : EuchreRoom := okOr (handlePass deck1 room4 "p0") room4

def room6 : EuchreRoom := okOr (handlePass deck1 room5 "p1") room5

def room7 : EuchreRoom := okOr (handlePass deck1 room6 "p2") room6

def room8 : EuchreRoom := okOr (handlePass deck1 room7 "p3") room7

def room9 : EuchreRoom := okOr (handleChooseTrump room8 "p0" (some .spades) true) room8

def room10 : EuchreRoom := okOr (handlePlayCard room9 "p0" (some "spades-J-1")) room9

def room11 : EuchreRoom := okOr (handlePlayCard room10 "p1" (some "spades-10-1")) room10

/-- The loner hand of the trace right after its first completed trick. -/
def lonerMidRoom : EuchreRoom := okOr (handlePlayCard room11 "p3" (some "hearts-9-1")) room11

/-- The trace branch where seat 0 orders up in round 1 instead: the
upcard (ace of hearts) moves into the dealer's hand. -/
def orderUpRoom : EuchreRoom := okOr (handleOrderUp room4 "p0" false) room4

def sumH (l : List PlayerState) : Nat :=
  (l.map (fun p => p.hand.length)).sum

/-- Total number of cards held in hands. -/
def sumHands (room : EuchreRoom) : Nat :=
  sumH room.players

/-! ### Invariants maintained by every room operation -/

/-- Trick-completion threshold of a hand: 3 under a loner, else 4. -/
def activeCount (g : EuchreGameState) : Nat :=
  match g.sittingOutSeat with
  | none => ROOM_SIZE
  | some _ => ROOM_SIZE - 1

/-- Phase-indexed part of the room invariant.  During bidding 20 cards
are in hands; after an order-up the dealer holds a sixth card until the
discard; during play the dealt cards are conserved (each completed trick
holds `activeCount` cards), the trick under construction is short of the
threshold, and no play — past or pending — belongs to the sitting-out
seat. -/
def PhaseInv (room : EuchreRoom) (g : EuchreGameState) : Prop :=
  match g.phase with
  | .biddingRound1 => sumHands room = 20
  | .biddingRound2 => sumHands room = 20
  | .dealerDiscard =>
      sumHands room = 21 ∧ g.trump ≠ none ∧ g.makerTeam ≠ none ∧ g.calledByPlayerId ≠ none
  | .playing =>
      g.trump ≠ none ∧
      sumHands room + g.currentTrick.length + activeCount g * g.completedTricks.length = 20 ∧
      g.currentTrick.length < activeCount g ∧
      (∀ s, g.sittingOutSeat = some s → g.turnSeat ≠ s) ∧
      (∀ play ∈ g.currentTrick, ∀ p ∈ room.players, p.id = play.playerId →
        ∀ s, g.sittingOutSeat = some s → p.seatIndex ≠ s)
  | .handOver => True
  | .gameOver => True

/-- The inductive room invariant. -/
structure Inv (room : EuchreRoom) : Prop where
  maxOk : room.maxPlayers = ROOM_SIZE
  idsNodup : (room.players.map (fun p => p.id)).Nodup
  fourWhenGame : ∀ g, room.game = some g → room.players.length = ROOM_SIZE
  phaseOk : ∀ g, room.game = some g → PhaseInv room g

/-! ### Concrete rooms and spec-side tables used by individual claims -/

/-- The rank-strength table exactly as the specification words it:
right bower 100, left bower 99, trump A/K/Q/10/9 = 98/97/96/95/94,
on-lead-suit non-trump A/K/Q/J/10/9 = 60/59/58/57/56/55, off-suit 0. -/
def rankStrengthSpec (s : Suit) (r : Rank) (trump leadSuit : Suit) : Nat :=
  if r = Rank.rJ ∧ s = trump then 100
  else if r = Rank.rJ ∧ s = sameColorSuit trump then 99
  else if s = trump then
    match r with
    | .rA => 98 | .rK => 97 | .rQ => 96 | .r10 => 95 | _ => 94
  else if s = leadSuit then
    match r with
    | .rA => 60 | .rK => 59 | .rQ => 58 | .rJ => 57 | .r10 => 56 | _ => 55
  else 0

def emptyGame : EuchreGameState :=
  { phase := Phase.biddingRound1, dealerSeat := 0, turnSeat := 0, upcard := none,
    kitty := [], blockedSuit := none, trump := none, makerTeam := none,
    calledByPlayerId := none, goingAlonePlayerId := none, sittingOutSeat := none,
    currentTrick := [], completedTricks := [], trickIndex := 0, handSummary := none,
    handNumber := 0 }

/-- The game state of `lonerMidRoom`. -/
def lonerMidGame : EuchreGameState := lonerMidRoom.game.getD emptyGame

/-- A mid-match room about to finalize a loner sweep: the maker (seat 0,
going alone) has won all five tricks and the score stands at 8-3. -/
def sweepPlayers : List PlayerState :=
  [{ id := "q0", name := "A", seatIndex := 0, connected := true, isBot := false, hand := [] },
   { id := "q1", name := "B", seatIndex := 1, connected := true, isBot := false, hand := [] },
   { id := "q2", name := "C", seatIndex := 2, connected := true, isBot := false, hand := [] },
   { id := "q3", name := "D", seatIndex := 3, connected := true, isBot := false, hand := [] }]

def sweepRoom : EuchreRoom :=
  { name := "w1", password := none, creatorToken := "t", creatorPlayerId := some "q0",
    maxPlayers := 4, status := RoomStatus.playing, botDifficulty := .medium,
    botCount := 0, score := { team0 := 8, team1 := 3 }, players := sweepPlayers,
    game := some { emptyGame with
      phase := Phase.playing, trump := some Suit.spades, makerTeam := some TeamId.team0,
      calledByPlayerId := some "q0", goingAlonePlayerId := some "q0",
      sittingOutSeat := some 2,
      completedTricks := [⟨0, 0, []⟩, ⟨1, 0, []⟩, ⟨2, 0, []⟩, ⟨3, 0, []⟩, ⟨4, 0, []⟩],
      trickIndex := 4, handNumber := 1 } }

/-- `sweepRoom` after the hand is finalized: 4 points to team 0, score
12-3, phase game-over. -/
def sweepOverRoom : EuchreRoom := finalizeHand sweepRoom

/-- `sweepOverRoom` after a restart-match: the score is reset to 0-0. -/
def restartedRoom : EuchreRoom := okOr (handleRestartMatch deck1 sweepOverRoom) sweepOverRoom

/-- A round-two room whose dealer (seat 2) is about to pass last. -/
def roomC7 : EuchreRoom :=
  { name := "w2", password := none, creatorToken := "t", creatorPlayerId := some "q0",
    maxPlayers := 4, status := RoomStatus.playing, botDifficulty := .medium,
    botCount := 0, score := { team0 := 3, team1 := 5 }, players := sweepPlayers,
    game := some { emptyGame with
      phase := Phase.biddingRound2, dealerSeat := 2, turnSeat := 2,
      blockedSuit := some Suit.hearts, handNumber := 2 } }

/-- The upcard of `deck1`; after the order-up of the trace it sits in the
dealer's hand while remaining in `game.upcard`. -/
def upcardHeartsA : Card := ⟨"hearts-A-1", .hearts, .rA⟩

/-- The session table used when exercising the message layer: all four
players of the trace room are connected. -/
def traceSessions : List SessionAttachment :=
  [⟨"s0", "r1", "p0"⟩, ⟨"s1", "r1", "p1"⟩, ⟨"s2", "r1", "p2"⟩, ⟨"s3", "r1", "p3"⟩]

/-- The game state of `room11` (third card of the loner trick pending). -/
def room11Game : EuchreGameState := room11.game.getD emptyGame

/-- The first completed trick of the loner hand of the trace. -/
def lonerMidTrick : CompletedTrick :=
  { index := 0, winnerSeat := 0, cards :=
      [⟨"p0", ⟨"spades-J-1", .spades, .rJ⟩⟩,
       ⟨"p1", ⟨"spades-10-1", .spades, .r10⟩⟩,
       ⟨"p3", ⟨"hearts-9-1", .hearts, .r9⟩⟩] }

/-- A placeholder player used only to strip `Option` from concrete lookups. -/
def emptyPlayer : PlayerState :=
  { id := "", name := "", seatIndex := 0, connected := false, isBot := false, hand := [] }

/-- The game state of `room4` (fresh round-one bidding). -/
def room4Game : EuchreGameState := room4.game.getD emptyGame

/-- The game state of `room8` (round-two bidding after four passes). -/
def room8Game : EuchreGameState := room8.game.getD emptyGame

/-- The game state of `room9` (the loner hand about to start playing). -/
def room9Game : EuchreGameState := room9.game.getD emptyGame

/-- The game state of `room10` (one card in the loner trick). -/
def room10Game : EuchreGameState := room10.game.getD emptyGame

/-- The game state of `sweepRoom`. -/
def sweepGame : EuchreGameState := sweepRoom.game.getD emptyGame

/-- The game state of `roomC7`. -/
def roomC7Game : EuchreGameState := roomC7.game.getD emptyGame

/-- The seat-0 player of `room4`. -/
def p0AtRoom4 : PlayerState := (getSeatPlayer room4 0).getD emptyPlayer

/-- The seat-0 player of `room8`. -/
def p0AtRoom8 : PlayerState := (getSeatPlayer room8 0).getD emptyPlayer

/-- The player `p1` of `room10`. -/
def p1AtRoom10 : PlayerState := (getPlayerById room10 "p1").getD emptyPlayer

/-- The dealer (seat 2) of `roomC7`. -/
def q2AtRoomC7 : PlayerState := (getSeatPlayer roomC7 2).getD emptyPlayer

/-- `room4` after its current bidder orders the upcard alone. -/
def orderUpAloneRoom : EuchreRoom := okOr (handleOrderUp room4 "p0" true) room4

/-- The game state of `orderUpAloneRoom`. -/
def orderUpAloneGame : EuchreGameState := orderUpAloneRoom.game.getD emptyGame

/-- A concrete action context for exercising the message layer. -/
def ctx1 : ActionContext := ⟨deck1, 3, "bot-1", "Bot"⟩

/-- The session of player `p0` in the trace room. -/
def sender1 : SessionAttachment := ⟨"s0", "r1", "p0"⟩

/-! ### Basic lemmas about the list helpers -/

theorem updateFirst_map_eq {pred : PlayerState → Bool} {f : PlayerState → PlayerState}
    {β : Type} (g : PlayerState → β) (hf : ∀ q, g (f q) = g q) :
    ∀ l : List PlayerState, (updateFirst pred f l).map g = l.map g := by
  intro l
  induction l with
  | nil => rfl
  | cons x xs ih =>
    by_cases hx : pred x
    · simp [updateFirst, hx, hf]
    · simp [updateFirst, hx, ih]

theorem updateFirst_length {pred : PlayerState → Bool} {f : PlayerState → PlayerState} :
    ∀ l : List PlayerState, (updateFirst pred f l).length = l.length := by
  intro l
  induction l with
  | nil => rfl
  | cons x xs ih =>
    by_cases hx : pred x
    · simp [updateFirst, hx]
    · simp [updateFirst, hx, ih]

theorem updateFirst_mem {pred : PlayerState → Bool} {f : PlayerState → PlayerState}
    {l : List PlayerState} {q : PlayerState} (hq : q ∈ updateFirst pred f l) :
    q ∈ l ∨ ∃ p ∈ l, pred p = true ∧ q = f p := by
  induction l with
  | nil => simp [updateFirst] at hq
  | cons x xs ih =>
    by_cases hx : pred x
    · simp only [updateFirst, hx, if_pos] at hq
      rcases List.mem_cons.mp hq with h | h
      · exact Or.inr ⟨x, List.mem_cons_self x xs, hx, h⟩
      · exact Or.inl (List.mem_cons_of_mem x h)
    · simp only [updateFirst, hx, if_neg, Bool.false_eq_true, not_false_iff] at hq
      rcases List.mem_cons.mp hq with h | h
      · exact Or.inl (h ▸ List.mem_cons_self x xs)
      · rcases ih h with h' | ⟨p, hp, hpred, he⟩
        · exact Or.inl (List.mem_cons_of_mem x h')
        · exact Or.inr ⟨p, List.mem_cons_of_mem x hp, hpred, he⟩

theorem sumH_updateFirst {pred : PlayerState → Bool} {f : PlayerState → PlayerState}
    {p : PlayerState} :
    ∀ {l : List PlayerState}, l.find? pred = some p →
      sumH (updateFirst pred f l) + p.hand.length = sumH l + (f p).hand.length := by
  intro l
  induction l with
  | nil => intro h; simp [List.find?] at h
  | cons x xs ih =>
    intro h
    by_cases hx : pred x
    · rw [List.find?_cons_of_pos _ hx] at h
      cases h
      simp [updateFirst, hx, sumH]
      omega
    · rw [List.find?_cons_of_neg _ hx] at h
      have := ih h
      simp only [updateFirst, hx, if_neg, Bool.false_eq_true, not_false_iff]
      simp only [sumH, List.map_cons, List.sum_cons] at this ⊢
      omega

theorem removeFirstCard_length {cardId : String} {c : Card} :
    ∀ {hand : List Card}, hand.find? (fun x => x.id == cardId) = some c →
      (removeFirstCard cardId hand).length + 1 = hand.length := by
  intro hand
  induction hand with
  | nil => intro h; simp [List.find?] at h
  | cons x xs ih =>
    intro h
    by_cases hx : (x.id == cardId) = true
    · simp [removeFirstCard, hx]
    · rw [List.find?_cons_of_neg _ (by simpa using hx)] at h
      have := ih h
      simp only [removeFirstCard, hx, if_neg, Bool.false_eq_true, not_false_iff,
        List.length_cons]
      omega

theorem dealHandsFrom_map_eq {deck : List Card} {β : Type} (g : PlayerState → β)
    (hg : ∀ p hand, g { p with hand := hand } = g p) :
    ∀ (i : Nat) (l : List PlayerState), (dealHandsFrom deck i l).map g = l.map g := by
  intro i l
  induction l generalizing i with
  | nil => rfl
  | cons x xs ih => simp [dealHandsFrom, hg, ih]

theorem dealHandsFrom_length {deck : List Card} :
    ∀ (i : Nat) (l : List PlayerState), (dealHandsFrom deck i l).length = l.length := by
  intro i l
  induction l generalizing i with
  | nil => rfl
  | cons x xs ih => simp [dealHandsFrom, ih]

theorem sumH_dealHands {deck : List Card} {l : List PlayerState}
    (hdeck : deck.length = 24) (hl : l.length = 4) :
    sumH (dealHands deck l) = 20 := by
  match l, hl with
  | [a, b, c, d], _ =>
    simp [dealHands, dealHandsFrom, sumH, List.length_take, List.length_drop, hdeck]

theorem find?_eq_some_of_nodup_id {l : List PlayerState} {p : PlayerState}
    (hnd : (l.map (fun q => q.id)).Nodup) (hp : p ∈ l) :
    l.find? (fun q => q.id == p.id) = some p := by
  induction l with
  | nil => simp at hp
  | cons x xs ih =>
    simp only [List.map_cons, List.nodup_cons] at hnd
    rcases List.mem_cons.mp hp with h | h
    · subst h
      exact List.find?_cons_of_pos _ (by simp)
    · have hx : (x.id == p.id) = false := by
        rw [beq_eq_false_iff_ne]
        intro he
        exact hnd.1 (he ▸ List.mem_map_of_mem (fun q => q.id) h)
      rw [List.find?_cons_of_neg _ (by simp [hx])]
      exact ih hnd.2 h

theorem getSeatPlayer_mem {room : EuchreRoom} {s : Nat} {p : PlayerState}
    (h : getSeatPlayer room s = some p) : p ∈ room.players :=
  List.mem_of_find?_eq_some h

theorem getSeatPlayer_seat {room : EuchreRoom} {s : Nat} {p : PlayerState}
    (h : getSeatPlayer room s = some p) : p.seatIndex = s := by
  have := List.find?_some h
  simpa using this

theorem getPlayerById_mem {room : EuchreRoom} {pid : String} {p : PlayerState}
    (h : getPlayerById room pid = some p) : p ∈ room.players :=
  List.mem_of_find?_eq_some h

theorem getPlayerById_id {room : EuchreRoom} {pid : String} {p : PlayerState}
    (h : getPlayerById room pid = some p) : p.id = pid := by
  have := List.find?_some h
  simpa using this

theorem isSeatSittingOut_iff {room : EuchreRoom} {g : EuchreGameState}
    (hg : room.game = some g) (seat : Nat) :
    isSeatSittingOut room seat = true ↔ g.sittingOutSeat = some seat := by
  unfold isSeatSittingOut
  rw [hg]
  dsimp only
  cases h : g.sittingOutSeat with
  | none => simp
  | some s => simp [beq_iff_eq]

/-- `nextActiveSeat` never lands on the sitting-out seat. -/
theorem nextActiveSeat_ne_sittingOut {room : EuchreRoom} {g : EuchreGameState}
    (hg : room.game = some g) {s : Nat} (hs : g.sittingOutSeat = some s)
    (fromSeat : Nat) : nextActiveSeat room fromSeat ≠ s := by
  intro he
  unfold nextActiveSeat at he
  cases hfind : (List.range ROOM_SIZE).find?
      (fun i => !(isSeatSittingOut room ((fromSeat + i + 1) % ROOM_SIZE))) with
  | some i =>
    rw [hfind] at he
    dsimp only at he
    have hi := List.find?_some hfind
    rw [Bool.not_eq_true'] at hi
    rw [he] at hi
    have : g.sittingOutSeat = some s := hs
    rw [← isSeatSittingOut_iff hg, hi] at this
    exact Bool.false_ne_true this
  | none =>
    -- impossible: among the four candidate seats at least two distinct
    -- values occur, so they cannot all be the single sitting-out seat
    have h0 : ¬ (!(isSeatSittingOut room ((fromSeat + 0 + 1) % ROOM_SIZE))) = true :=
      List.find?_eq_none.mp hfind 0 (by simp [ROOM_SIZE])
    have h1 : ¬ (!(isSeatSittingOut room ((fromSeat + 1 + 1) % ROOM_SIZE))) = true :=
      List.find?_eq_none.mp hfind 1 (by simp [ROOM_SIZE])
    simp only [Bool.not_eq_true', Bool.not_eq_false] at h0 h1
    have e0 := (isSeatSittingOut_iff hg _).mp h0
    have e1 := (isSeatSittingOut_iff hg _).mp h1
    rw [hs] at e0 e1
    have e0' : s = (fromSeat + 0 + 1) % ROOM_SIZE := Option.some.inj e0
    have e1' : s = (fromSeat + 1 + 1) % ROOM_SIZE := Option.some.inj e1
    simp only [ROOM_SIZE] at e0' e1'
    omega

theorem activeSeatCount_eq {room : EuchreRoom} {g : EuchreGameState}
    (hg : room.game = some g) : activeSeatCountForPlay room = activeCount g := by
  simp only [activeSeatCountForPlay, activeCount, hg]

theorem activeCount_pos (g : EuchreGameState) : 0 < activeCount g := by
  unfold activeCount
  cases g.sittingOutSeat <;> simp [ROOM_SIZE]

theorem activeCount_le (g : EuchreGameState) : activeCount g ≤ 4 := by
  unfold activeCount
  cases g.sittingOutSeat <;> simp [ROOM_SIZE]

/-! ### `bestPlay` and `resolveTrickWinner` -/

theorem bestPlay_spec (trump leadSuit : Suit) :
    ∀ (rest : List TrickPlay) (acc : TrickPlay × Nat),
      acc.2 = rankStrength acc.1.card (some trump) (some leadSuit) →
      (bestPlay trump leadSuit acc rest = acc ∨
        (bestPlay trump leadSuit acc rest).1 ∈ rest) ∧
      (bestPlay trump leadSuit acc rest).2 =
        rankStrength (bestPlay trump leadSuit acc rest).1.card (some trump) (some leadSuit) ∧
      acc.2 ≤ (bestPlay trump leadSuit acc rest).2 ∧
      ∀ q ∈ rest, rankStrength q.card (some trump) (some leadSuit) ≤
        (bestPlay trump leadSuit acc rest).2 := by
  intro rest
  induction rest with
  | nil =>
    intro acc hacc
    exact ⟨Or.inl rfl, hacc, le_refl _, by simp⟩
  | cons play rest ih =>
    intro acc hacc
    by_cases hlt : acc.2 < rankStrength play.card (some trump) (some leadSuit)
    · have hstep : bestPlay trump leadSuit acc (play :: rest) =
          bestPlay trump leadSuit (play, rankStrength play.card (some trump) (some leadSuit)) rest := by
        simp [bestPlay, hlt]
      obtain ⟨hmem, hval, hle, hall⟩ :=
        ih (play, rankStrength play.card (some trump) (some leadSuit)) rfl
      rw [hstep]
      refine ⟨?_, hval, ?_, ?_⟩
      · rcases hmem with h | h
        · exact Or.inr (by rw [h]; exact List.mem_cons_self _ _)
        · exact Or.inr (List.mem_cons_of_mem _ h)
      · exact le_of_lt (lt_of_lt_of_le hlt hle)
      · intro q hq
        rcases List.mem_cons.mp hq with h | h
        · exact h ▸ hle
        · exact hall q h
    · have hstep : bestPlay trump leadSuit acc (play :: rest) =
          bestPlay trump leadSuit acc rest := by
        simp [bestPlay, hlt]
      obtain ⟨hmem, hval, hle, hall⟩ := ih acc hacc
      rw [hstep]
      refine ⟨?_, hval, hle, ?_⟩
      · rcases hmem with h | h
        · exact Or.inl h
        · exact Or.inr (List.mem_cons_of_mem _ h)
      · intro q hq
        rcases List.mem_cons.mp hq with h | h
        · exact h ▸ le_trans (not_lt.mp hlt) hle
        · exact hall q h

/-- The trick winner is a play of the trick whose rank strength is
maximal for the trick's trump and lead. -/
theorem resolveTrickWinner_spec {c0 : TrickPlay} {rest : List TrickPlay} (trump : Suit) :
    ∃ w ∈ c0 :: rest, resolveTrickWinner (c0 :: rest) trump = w.playerId ∧
      ∀ q ∈ c0 :: rest,
        rankStrength q.card (some trump) (some (effectiveSuit c0.card trump)) ≤
          rankStrength w.card (some trump) (some (effectiveSuit c0.card trump)) := by
  have h := bestPlay_spec trump (effectiveSuit c0.card trump) rest
    (c0, rankStrength c0.card (some trump) (some (effectiveSuit c0.card trump))) rfl
  obtain ⟨hmem, hval, hle, hall⟩ := h
  refine ⟨(bestPlay trump (effectiveSuit c0.card trump)
    (c0, rankStrength c0.card (some trump) (some (effectiveSuit c0.card trump))) rest).1,
    ?_, rfl, ?_⟩
  · rcases hmem with h | h
    · rw [h]
      exact List.mem_cons_self _ _
    · exact List.mem_cons_of_mem _ h
  · intro q hq
    rw [← hval]
    rcases List.mem_cons.mp hq with h | h
    · subst h
      exact hle
    · exact hall q h

theorem isFullDeck_length {deck : List Card} (h : isFullDeck deck = true) :
    deck.length = 24 := by
  unfold isFullDeck at h
  rw [Bool.and_eq_true] at h
  simpa using h.1

/-- Dealing a fresh hand re-establishes the invariant. -/
theorem inv_startNewHandWith {deck : List Card} {d : Nat} {reset : Bool}
    {room : EuchreRoom} (hdeck : deck.length = 24) (h : Inv room) :
    Inv (startNewHandWith deck d reset room) := by
  unfold startNewHandWith
  by_cases hlen : room.players.length ≠ ROOM_SIZE
  · rw [if_pos hlen]
    exact h
  · rw [if_neg hlen]
    push_neg at hlen
    refine ⟨h.maxOk, ?_, ?_, ?_⟩
    · show ((dealHands deck room.players).map (fun p => p.id)).Nodup
      rw [dealHands, dealHandsFrom_map_eq (fun p => p.id) (fun p hand => rfl)]
      exact h.idsNodup
    · intro g hg
      show (dealHands deck room.players).length = ROOM_SIZE
      rw [dealHands, dealHandsFrom_length]
      exact hlen
    · intro g hg
      simp only [Option.some.injEq] at hg
      subst hg
      show PhaseInv _ _
      unfold PhaseInv
      dsimp only
      show sumH (dealHands deck room.players) = 20
      exact sumH_dealHands hdeck (by simpa [ROOM_SIZE] using hlen)

/-- Entering the playing phase from a state with 20 cards in hands
establishes the playing invariant. -/
theorem inv_startPlayingPhase {room : EuchreRoom} {g : EuchreGameState}
    (hg : room.game = some g) (hmax : room.maxPlayers = ROOM_SIZE)
    (hnd : (room.players.map (fun p => p.id)).Nodup)
    (hlen : room.players.length = ROOM_SIZE) (hsum : sumHands room = 20)
    (htr : g.trump ≠ none) (hmk : g.makerTeam ≠ none)
    (hcb : g.calledByPlayerId ≠ none) :
    Inv (startPlayingPhase room) := by
  unfold startPlayingPhase
  rw [hg]
  dsimp only
  rw [if_neg (by simp [htr, hmk, hcb])]
  refine ⟨hmax, hnd, fun g' hg' => hlen, ?_⟩
  intro g' hg'
  simp only [Option.some.injEq] at hg'
  subst hg'
  show PhaseInv _ _
  unfold PhaseInv
  dsimp only
  refine ⟨htr, ?_, ?_, ?_, ?_⟩
  · show sumHands room + 0 + activeCount _ * 0 = 20
    simpa using hsum
  · exact activeCount_pos _
  · intro s hs
    exact nextActiveSeat_ne_sittingOut hg hs g.dealerSeat
  · intro play hplay
    simp at hplay

theorem phaseInv_round1 {room : EuchreRoom} {g : EuchreGameState}
    (hp : PhaseInv room g) (h1 : g.phase = .biddingRound1) : sumHands room = 20 := by
  unfold PhaseInv at hp
  rw [h1] at hp
  exact hp

theorem phaseInv_round2 {room : EuchreRoom} {g : EuchreGameState}
    (hp : PhaseInv room g) (h1 : g.phase = .biddingRound2) : sumHands room = 20 := by
  unfold PhaseInv at hp
  rw [h1] at hp
  exact hp

theorem phaseInv_discard {room : EuchreRoom} {g : EuchreGameState}
    (hp : PhaseInv room g) (h1 : g.phase = .dealerDiscard) :
    sumHands room = 21 ∧ g.trump ≠ none ∧ g.makerTeam ≠ none ∧ g.calledByPlayerId ≠ none := by
  unfold PhaseInv at hp
  rw [h1] at hp
  exact hp

theorem phaseInv_playing {room : EuchreRoom} {g : EuchreGameState}
    (hp : PhaseInv room g) (h1 : g.phase = .playing) :
    g.trump ≠ none ∧
    sumHands room + g.currentTrick.length + activeCount g * g.completedTricks.length = 20 ∧
    g.currentTrick.length < activeCount g ∧
    (∀ s, g.sittingOutSeat = some s → g.turnSeat ≠ s) ∧
    (∀ play ∈ g.currentTrick, ∀ p ∈ room.players, p.id = play.playerId →
      ∀ s, g.sittingOutSeat = some s → p.seatIndex ≠ s) := by
  unfold PhaseInv at hp
  rw [h1] at hp
  exact hp

theorem inv_handlePass {deck : List Card} {room : EuchreRoom} {pid : String}
    {room' : EuchreRoom} (hdeck : deck.length = 24) (h : Inv room)
    (hok : handlePass deck room pid = .ok room') : Inv room' := by
  unfold handlePass at hok
  cases hg : room.game with
  | none =>
    rw [hg] at hok
    dsimp only at hok
    simp only [Except.ok.injEq] at hok
    subst hok
    exact h
  | some g =>
    rw [hg] at hok
    dsimp only at hok
    cases hcp : getSeatPlayer room g.turnSeat with
    | none => rw [hcp] at hok; simp at hok
    | some cp =>
      rw [hcp] at hok
      dsimp only at hok
      by_cases hid : cp.id ≠ pid
      · rw [if_pos hid] at hok; simp at hok
      · rw [if_neg hid] at hok
        by_cases hph1 : g.phase = Phase.biddingRound1
        · rw [if_pos hph1] at hok
          have hsum := phaseInv_round1 (h.phaseOk g hg) hph1
          by_cases hturn : nextSeat g.turnSeat = nextSeat g.dealerSeat
          · rw [if_pos hturn] at hok
            simp only [Except.ok.injEq] at hok
            subst hok
            refine ⟨h.maxOk, h.idsNodup, fun g' hg' => h.fourWhenGame g hg, ?_⟩
            intro g' hg'
            simp only [Option.some.injEq] at hg'
            subst hg'
            unfold PhaseInv
            exact hsum
          · rw [if_neg hturn] at hok
            simp only [Except.ok.injEq] at hok
            subst hok
            refine ⟨h.maxOk, h.idsNodup, fun g' hg' => h.fourWhenGame g hg, ?_⟩
            intro g' hg'
            simp only [Option.some.injEq] at hg'
            subst hg'
            unfold PhaseInv
            dsimp only
            rw [hph1]
            exact hsum
        · rw [if_neg hph1] at hok
          by_cases hph2 : g.phase = Phase.biddingRound2
          · rw [if_pos hph2] at hok
            have hsum := phaseInv_round2 (h.phaseOk g hg) hph2
            by_cases hturn : nextSeat g.turnSeat = nextSeat g.dealerSeat
            · rw [if_pos hturn] at hok
              simp only [Except.ok.injEq] at hok
              subst hok
              exact inv_startNewHandWith hdeck h
            · rw [if_neg hturn] at hok
              simp only [Except.ok.injEq] at hok
              subst hok
              refine ⟨h.maxOk, h.idsNodup, fun g' hg' => h.fourWhenGame g hg, ?_⟩
              intro g' hg'
              simp only [Option.some.injEq] at hg'
              subst hg'
              unfold PhaseInv
              dsimp only
              rw [hph2]
              exact hsum
          · rw [if_neg hph2] at hok
            simp at hok

theorem inv_handleOrderUp {room : EuchreRoom} {pid : String} {alone : Bool}
    {room' : EuchreRoom} (h : Inv room)
    (hok : handleOrderUp room pid alone = .ok room') : Inv room' := by
  unfold handleOrderUp at hok
  cases hg : room.game with
  | none => rw [hg] at hok; simp at hok
  | some g =>
    rw [hg] at hok
    dsimp only at hok
    by_cases hph : g.phase ≠ Phase.biddingRound1
    · rw [if_pos hph] at hok; simp at hok
    · rw [if_neg hph] at hok
      push_neg at hph
      cases hcp : getSeatPlayer room g.turnSeat with
      | none => rw [hcp] at hok; simp at hok
      | some cp =>
        rw [hcp] at hok
        dsimp only at hok
        by_cases hid : cp.id ≠ pid
        · rw [if_pos hid] at hok; simp at hok
        · rw [if_neg hid] at hok
          cases hup : g.upcard with
          | none => rw [hup] at hok; simp at hok
          | some upcard =>
            rw [hup] at hok
            dsimp only at hok
            cases hdl : getSeatPlayer room g.dealerSeat with
            | none => rw [hdl] at hok; simp at hok
            | some dealer =>
              rw [hdl] at hok
              dsimp only at hok
              simp only [Except.ok.injEq] at hok
              subst hok
              have hsum := phaseInv_round1 (h.phaseOk g hg) hph
              have hsum' := sumH_updateFirst (f := fun p => { p with hand := p.hand ++ [upcard] }) hdl
              refine ⟨h.maxOk, ?_, ?_, ?_⟩
              · show ((updateFirst _ _ room.players).map (fun p => p.id)).Nodup
                rw [updateFirst_map_eq (f := fun p => { p with hand := p.hand ++ [upcard] })
                  (fun p => p.id) (fun q => rfl)]
                exact h.idsNodup
              · intro g' hg'
                show (updateFirst _ _ room.players).length = ROOM_SIZE
                rw [updateFirst_length]
                exact h.fourWhenGame g hg
              · intro g' hg'
                simp only [Option.some.injEq] at hg'
                subst hg'
                unfold PhaseInv
                dsimp only
                refine ⟨?_, by simp, by simp, by simp⟩
                show sumH (updateFirst _ _ room.players) = 21
                simp only [List.length_append, List.length_cons, List.length_nil] at hsum'
                have : sumHands room = 20 := hsum
                unfold sumHands at this
                omega

theorem inv_handleChooseTrump {room : EuchreRoom} {pid : String}
    {suit : Option Suit} {alone : Bool} {room' : EuchreRoom} (h : Inv room)
    (hok : handleChooseTrump room pid suit alone = .ok room') : Inv room' := by
  unfold handleChooseTrump at hok
  cases hg : room.game with
  | none => rw [hg] at hok; simp at hok
  | some g =>
    rw [hg] at hok
    dsimp only at hok
    by_cases hph : g.phase ≠ Phase.biddingRound2
    · rw [if_pos hph] at hok; simp at hok
    · rw [if_neg hph] at hok
      push_neg at hph
      cases hcp : getSeatPlayer room g.turnSeat with
      | none => rw [hcp] at hok; simp at hok
      | some cp =>
        rw [hcp] at hok
        dsimp only at hok
        by_cases hid : cp.id ≠ pid
        · rw [if_pos hid] at hok; simp at hok
        · rw [if_neg hid] at hok
          cases hsu : suit with
          | none => rw [hsu] at hok; simp at hok
          | some s =>
            rw [hsu] at hok
            dsimp only at hok
            by_cases hbl : g.blockedSuit = some s
            · rw [if_pos hbl] at hok; simp at hok
            · rw [if_neg hbl] at hok
              simp only [Except.ok.injEq] at hok
              subst hok
              have hsum := phaseInv_round2 (h.phaseOk g hg) hph
              exact inv_startPlayingPhase rfl h.maxOk h.idsNodup
                (h.fourWhenGame g hg) hsum (by simp) (by simp) (by simp)

theorem inv_handleDiscard {room : EuchreRoom} {pid : String} {cardId : Option String}
    {room' : EuchreRoom} (h : Inv room)
    (hok : handleDiscard room pid cardId = .ok room') : Inv room' := by
  unfold handleDiscard at hok
  cases hg : room.game with
  | none => rw [hg] at hok; simp at hok
  | some g =>
    rw [hg] at hok
    dsimp only at hok
    by_cases hph : g.phase ≠ Phase.dealerDiscard
    · rw [if_pos hph] at hok; simp at hok
    · rw [if_neg hph] at hok
      push_neg at hph
      cases hcp : getSeatPlayer room g.turnSeat with
      | none => rw [hcp] at hok; simp at hok
      | some cp =>
        rw [hcp] at hok
        dsimp only at hok
        by_cases hid : cp.id ≠ pid
        · rw [if_pos hid] at hok; simp at hok
        · rw [if_neg hid] at hok
          cases hcid : cardId with
          | none => rw [hcid] at hok; simp at hok
          | some cid =>
            rw [hcid] at hok
            dsimp only at hok
            cases hfind : cp.hand.find? (fun c => c.id == cid) with
            | none => rw [hfind] at hok; simp at hok
            | some c =>
              rw [hfind] at hok
              dsimp only at hok
              simp only [Except.ok.injEq] at hok
              subst hok
              obtain ⟨hsum, htr, hmk, hcb⟩ := phaseInv_discard (h.phaseOk g hg) hph
              have hrm := removeFirstCard_length hfind
              have hsum' := sumH_updateFirst
                (f := fun p => { p with hand := removeFirstCard cid p.hand }) hcp
              refine inv_startPlayingPhase rfl h.maxOk ?_ ?_ ?_ htr hmk hcb
              · show ((updateFirst _ _ room.players).map (fun p => p.id)).Nodup
                rw [updateFirst_map_eq (f := fun p => { p with hand := removeFirstCard cid p.hand })
                  (fun p => p.id) (fun q => rfl)]
                exact h.idsNodup
              · show (updateFirst _ _ room.players).length = ROOM_SIZE
                rw [updateFirst_length]
                exact h.fourWhenGame g hg
              · show sumH (updateFirst _ _ room.players) = 20
                unfold sumHands at hsum
                dsimp only at hsum'
                omega

theorem updateFirst_id_seat {pred : PlayerState → Bool} {f : PlayerState → PlayerState}
    (hid : ∀ q, (f q).id = q.id) (hseat : ∀ q, (f q).seatIndex = q.seatIndex)
    {l : List PlayerState} {p : PlayerState} (hp : p ∈ updateFirst pred f l) :
    ∃ q ∈ l, p.id = q.id ∧ p.seatIndex = q.seatIndex := by
  rcases updateFirst_mem hp with h | ⟨q, hq, _, he⟩
  · exact ⟨p, h, rfl, rfl⟩
  · exact ⟨q, hq, he ▸ hid q, he ▸ hseat q⟩

theorem phaseInv_of_over {room : EuchreRoom} {g : EuchreGameState}
    (h : g.phase = Phase.handOver ∨ g.phase = Phase.gameOver) : PhaseInv room g := by
  unfold PhaseInv
  rcases h with h | h <;> rw [h] <;> trivial

theorem phaseAfterHand_over (score : Score) :
    phaseAfterHand score = Phase.handOver ∨ phaseAfterHand score = Phase.gameOver := by
  unfold phaseAfterHand
  cases winningTeamOf score with
  | none => exact Or.inl rfl
  | some t => exact Or.inr rfl

theorem inv_finalizeHand {room : EuchreRoom} (h : Inv room) : Inv (finalizeHand room) := by
  unfold finalizeHand
  cases hg : room.game with
  | none => exact h
  | some g =>
    dsimp only
    cases hmk : g.makerTeam with
    | none => exact h
    | some mk =>
      dsimp only
      refine ⟨h.maxOk, h.idsNodup, fun g' hg' => h.fourWhenGame g hg, ?_⟩
      intro g' hg'
      simp only [Option.some.injEq] at hg'
      subst hg'
      apply phaseInv_of_over
      exact phaseAfterHand_over _

theorem inv_handlePlayCard {room : EuchreRoom} {pid : String} {cardId : Option String}
    {room' : EuchreRoom} (h : Inv room)
    (hok : handlePlayCard room pid cardId = .ok room') : Inv room' := by
  unfold handlePlayCard at hok
  cases hg : room.game with
  | none => rw [hg] at hok; simp at hok
  | some g =>
    rw [hg] at hok
    dsimp only at hok
    by_cases hph : g.phase ≠ Phase.playing
    · rw [if_pos hph] at hok; simp at hok
    · rw [if_neg hph] at hok
      push_neg at hph
      cases hcp : getSeatPlayer room g.turnSeat with
      | none => rw [hcp] at hok; simp at hok
      | some cp =>
        rw [hcp] at hok
        dsimp only at hok
        by_cases hid : cp.id ≠ pid
        · rw [if_pos hid] at hok; simp at hok
        · rw [if_neg hid] at hok
          push_neg at hid
          by_cases hact : (!(isPlayerActiveForPlay room cp)) = true
          · rw [if_pos hact] at hok; simp at hok
          · rw [if_neg hact] at hok
            cases hcid : cardId with
            | none => rw [hcid] at hok; simp at hok
            | some cid =>
              rw [hcid] at hok
              dsimp only at hok
              by_cases hlegal : (!((getLegalPlays room pid).contains cid)) = true
              · rw [if_pos hlegal] at hok; simp at hok
              · rw [if_neg hlegal] at hok
                cases hfind : cp.hand.find? (fun c => c.id == cid) with
                | none => rw [hfind] at hok; simp at hok
                | some card =>
                  rw [hfind] at hok
                  dsimp only at hok
                  -- base facts
                  have hmem := getSeatPlayer_mem hcp
                  have hseat := getSeatPlayer_seat hcp
                  obtain ⟨htr, hident, hlt, hturnOk, htrickOk⟩ :=
                    phaseInv_playing (h.phaseOk g hg) hph
                  unfold sumHands at hident
                  have hrm := removeFirstCard_length hfind
                  have hsum' := sumH_updateFirst
                    (f := fun p => { p with hand := removeFirstCard cid p.hand }) hcp
                  dsimp only at hsum'
                  have hnd' : ((updateFirst (fun p => p.seatIndex == g.turnSeat)
                      (fun p => { p with hand := removeFirstCard cid p.hand })
                      room.players).map (fun p => p.id)).Nodup := by
                    rw [updateFirst_map_eq
                      (f := fun p => { p with hand := removeFirstCard cid p.hand })
                      (fun p => p.id) (fun q => rfl)]
                    exact h.idsNodup
                  have hlen' : (updateFirst (fun p => p.seatIndex == g.turnSeat)
                      (fun p => { p with hand := removeFirstCard cid p.hand })
                      room.players).length = ROOM_SIZE := by
                    rw [updateFirst_length]
                    exact h.fourWhenGame g hg
                  have htrickOk' : ∀ play ∈ g.currentTrick ++ [{ playerId := pid, card := card : TrickPlay }],
                      ∀ p ∈ updateFirst (fun p => p.seatIndex == g.turnSeat)
                        (fun p => { p with hand := removeFirstCard cid p.hand }) room.players,
                      p.id = play.playerId → ∀ s, g.sittingOutSeat = some s → p.seatIndex ≠ s := by
                    intro play hplay p hp hpid s hs
                    rcases updateFirst_id_seat
                      (f := fun p => { p with hand := removeFirstCard cid p.hand })
                      (fun q => rfl) (fun q => rfl) hp with ⟨q, hq, hqid, hqseat⟩
                    rcases List.mem_append.mp hplay with h1 | h2
                    · rw [hqseat]
                      exact htrickOk play h1 q hq (hqid.symm.trans hpid) s hs
                    · have hpe : play = { playerId := pid, card := card } := by
                        simpa using h2
                      have hqcp : q = cp := by
                        refine List.inj_on_of_nodup_map h.idsNodup hq hmem ?_
                        show q.id = cp.id
                        rw [← hqid, hpid, hpe, ← hid]
                      rw [hqseat, hqcp, hseat]
                      exact hturnOk s hs
                  split at hok
                  next hfull =>
                    -- trick not yet complete: advance the turn
                    have hfull' : (g.currentTrick ++
                        [{ playerId := pid, card := card : TrickPlay }]).length < activeCount g := by
                      unfold activeSeatCountForPlay at hfull
                      dsimp only at hfull
                      unfold activeCount
                      exact hfull
                    simp only [Except.ok.injEq] at hok
                    subst hok
                    refine ⟨h.maxOk, hnd', fun g' hg' => hlen', ?_⟩
                    intro g' hg'
                    simp only [Option.some.injEq] at hg'
                    subst hg'
                    unfold PhaseInv
                    dsimp only
                    rw [hph]
                    refine ⟨htr, ?_, ?_, ?_, ?_⟩
                    · show sumH _ + (g.currentTrick ++ _).length +
                        activeCount g * g.completedTricks.length = 20
                      simp only [List.length_append, List.length_cons, List.length_nil]
                      omega
                    · show (g.currentTrick ++ _).length < activeCount g
                      exact hfull'
                    · intro s hs
                      exact nextActiveSeat_ne_sittingOut (g := { g with
                        phase := Phase.playing
                        currentTrick := g.currentTrick ++ [{ playerId := pid, card := card }] })
                        rfl hs g.turnSeat
                    · exact htrickOk'
                  next hfull =>
                    -- trick complete: resolve the winner
                    have hge : activeCount g ≤ (g.currentTrick ++
                        [{ playerId := pid, card := card : TrickPlay }]).length := by
                      unfold activeSeatCountForPlay at hfull
                      dsimp only at hfull
                      unfold activeCount
                      exact not_lt.mp hfull
                    cases htrv : g.trump with
                    | none => rw [htrv] at hok; simp at hok
                    | some trump =>
                      rw [htrv] at hok
                      dsimp only at hok
                      split at hok
                      next hwf => simp at hok
                      next w hwf =>
                        have hwmem := List.mem_of_find?_eq_some hwf
                        have hwid : w.id = resolveTrickWinner
                            (g.currentTrick ++ [{ playerId := pid, card := card }]) trump := by
                          simpa using List.find?_some hwf
                        have hne : g.currentTrick ++
                            [{ playerId := pid, card := card : TrickPlay }] ≠ [] := by
                          simp
                        obtain ⟨c0, rest, heq⟩ := List.exists_cons_of_ne_nil hne
                        have hwseat : ∀ s, g.sittingOutSeat = some s → w.seatIndex ≠ s := by
                          intro s hs
                          obtain ⟨wplay, hwp, hwid2, _⟩ :=
                            @resolveTrickWinner_spec c0 rest trump
                          refine htrickOk' wplay (heq ▸ hwp) w hwmem ?_ s hs
                          rw [hwid, heq, hwid2]
                        split at hok
                        next hti =>
                          -- fifth trick: finalize the hand
                          simp only [Except.ok.injEq] at hok
                          subst hok
                          apply inv_finalizeHand
                          refine ⟨h.maxOk, hnd', fun g' hg' => hlen', ?_⟩
                          intro g' hg'
                          simp only [Option.some.injEq] at hg'
                          subst hg'
                          unfold PhaseInv
                          dsimp only
                          rw [hph]
                          refine ⟨by simp, ?_, activeCount_pos _, ?_, ?_⟩
                          · show sumH _ + 0 + activeCount g * (g.completedTricks ++ _).length = 20
                            simp only [List.length_append, List.length_cons, List.length_nil,
                              Nat.mul_add, Nat.mul_one]
                            simp only [List.length_append, List.length_cons,
                              List.length_nil] at hge hfull
                            omega
                          · intro s hs
                            exact hturnOk s hs
                          · intro play hplay
                            simp at hplay
                        next hti =>
                          -- tricks remain: winner leads the next trick
                          simp only [Except.ok.injEq] at hok
                          subst hok
                          refine ⟨h.maxOk, hnd', fun g' hg' => hlen', ?_⟩
                          intro g' hg'
                          simp only [Option.some.injEq] at hg'
                          subst hg'
                          unfold PhaseInv
                          dsimp only
                          rw [hph]
                          refine ⟨by simp, ?_, activeCount_pos _, ?_, ?_⟩
                          · show sumH _ + 0 + activeCount g * (g.completedTricks ++ _).length = 20
                            simp only [List.length_append, List.length_cons, List.length_nil,
                              Nat.mul_add, Nat.mul_one]
                            simp only [List.length_append, List.length_cons,
                              List.length_nil] at hge hfull
                            omega
                          · intro s hs
                            exact hwseat s hs
                          · intro play hplay
                            simp at hplay

/-- `PhaseInv` only inspects the players through hand sizes, ids and
seats, so it transports along any player-list change preserving those. -/
theorem phaseInv_preserve {room : EuchreRoom} {g : EuchreGameState}
    {players' : List PlayerState}
    (hsum : sumH players' = sumH room.players)
    (hmem : ∀ p ∈ players', ∃ q ∈ room.players, p.id = q.id ∧ p.seatIndex = q.seatIndex)
    (hp : PhaseInv room g) :
    PhaseInv { room with players := players' } g := by
  unfold PhaseInv at *
  cases hph : g.phase with
  | biddingRound1 =>
    rw [hph] at hp
    show sumH players' = 20
    rw [hsum]
    exact hp
  | biddingRound2 =>
    rw [hph] at hp
    show sumH players' = 20
    rw [hsum]
    exact hp
  | dealerDiscard =>
    rw [hph] at hp
    refine ⟨?_, hp.2.1, hp.2.2.1, hp.2.2.2⟩
    show sumH players' = 21
    rw [hsum]
    exact hp.1
  | playing =>
    rw [hph] at hp
    obtain ⟨htr, hident, hlt, hturn, htrick⟩ := hp
    refine ⟨htr, ?_, hlt, hturn, ?_⟩
    · show sumH players' + _ + _ = 20
      rw [hsum]
      exact hident
    · intro play hplay p hp' hpid s hs
      obtain ⟨q, hq, hqid, hqseat⟩ := hmem p hp'
      rw [hqseat]
      exact htrick play hplay q hq (hqid.symm.trans hpid) s hs
  | handOver => trivial
  | gameOver => trivial

theorem inv_handleStartNextHand {deck : List Card} {room room' : EuchreRoom}
    (hdeck : deck.length = 24) (h : Inv room)
    (hok : handleStartNextHand deck room = .ok room') : Inv room' := by
  unfold handleStartNextHand at hok
  cases hg : room.game with
  | none => rw [hg] at hok; simp at hok
  | some g =>
    rw [hg] at hok
    dsimp only at hok
    by_cases hlen : room.players.length ≠ ROOM_SIZE
    · rw [if_pos hlen] at hok; simp at hok
    · rw [if_neg hlen] at hok
      by_cases hph : g.phase ≠ Phase.handOver
      · rw [if_pos hph] at hok; simp at hok
      · rw [if_neg hph] at hok
        simp only [Except.ok.injEq] at hok
        subst hok
        exact inv_startNewHandWith hdeck h

theorem inv_handleRestartMatch {deck : List Card} {room room' : EuchreRoom}
    (hdeck : deck.length = 24) (h : Inv room)
    (hok : handleRestartMatch deck room = .ok room') : Inv room' := by
  unfold handleRestartMatch at hok
  cases hg : room.game with
  | none => rw [hg] at hok; simp at hok
  | some g =>
    rw [hg] at hok
    dsimp only at hok
    by_cases hlen : room.players.length ≠ ROOM_SIZE
    · rw [if_pos hlen] at hok; simp at hok
    · rw [if_neg hlen] at hok
      by_cases hph : g.phase ≠ Phase.gameOver
      · rw [if_pos hph] at hok; simp at hok
      · rw [if_neg hph] at hok
        simp only [Except.ok.injEq] at hok
        subst hok
        exact inv_startNewHandWith hdeck h

theorem inv_handleStartRoom {deck : List Card} {d : Nat} {room room' : EuchreRoom}
    {pid : String} (hdeck : deck.length = 24) (h : Inv room)
    (hok : handleStartRoom deck d room pid = .ok room') : Inv room' := by
  unfold handleStartRoom assertCreator at hok
  split at hok
  next => simp at hok
  next =>
    split at hok
    next => simp at hok
    next =>
      split at hok
      next => simp at hok
      next =>
        simp only [Except.ok.injEq] at hok
        subst hok
        exact inv_startNewHandWith hdeck h

theorem inv_handleAddBot {room room' : EuchreRoom} {pid botId botName : String}
    (hfresh : ∀ p ∈ room.players, p.id ≠ botId) (h : Inv room)
    (hok : handleAddBot room pid botId botName = .ok room') : Inv room' := by
  unfold handleAddBot assertCreator at hok
  split at hok
  next => simp at hok
  next =>
    split at hok
    next => simp at hok
    next hlobby =>
      push_neg at hlobby
      split at hok
      next => simp at hok
      next =>
        split at hok
        next => simp at hok
        next seat hseat =>
          simp only [Except.ok.injEq] at hok
          subst hok
          refine ⟨h.maxOk, ?_, ?_, ?_⟩
          · rw [List.map_append]
            rw [List.nodup_append]
            refine ⟨h.idsNodup, by simp, ?_⟩
            intro x hx
            simp only [List.map_cons, List.map_nil, List.mem_cons, List.not_mem_nil,
              or_false]
            rcases List.mem_map.mp hx with ⟨p, hp, he⟩
            intro hxe
            exact hfresh p hp (he.trans hxe)
          · intro g hg
            rw [hlobby.2] at hg
            simp at hg
          · intro g hg
            rw [hlobby.2] at hg
            simp at hg

theorem inv_handleRemoveBot {room room' : EuchreRoom} {pid : String} (h : Inv room)
    (hok : handleRemoveBot room pid = .ok room') : Inv room' := by
  unfold handleRemoveBot assertCreator at hok
  split at hok
  next => simp at hok
  next =>
    split at hok
    next => simp at hok
    next hlobby =>
      push_neg at hlobby
      split at hok
      next => simp at hok
      next b bs hb =>
        simp only [Except.ok.injEq] at hok
        subst hok
        refine ⟨h.maxOk, ?_, ?_, ?_⟩
        · have hsub : (room.players.filter (fun p =>
              decide (p.id ≠ (bs.foldl (fun best p =>
                if best.seatIndex < p.seatIndex then p else best) b).id))).Sublist room.players :=
            List.filter_sublist _
          exact h.idsNodup.sublist (hsub.map (fun p => p.id))
        · intro g hg
          rw [hlobby.2] at hg
          simp at hg
        · intro g hg
          rw [hlobby.2] at hg
          simp at hg

theorem inv_handleSetSeat {room room' : EuchreRoom} {pid : String}
    {targetId : Option String} {seatIndex : Option Nat} (h : Inv room)
    (hok : handleSetSeat room pid targetId seatIndex = .ok room') : Inv room' := by
  unfold handleSetSeat assertCreator at hok
  split at hok
  next => simp at hok
  next =>
    split at hok
    next => simp at hok
    next hlobby =>
      push_neg at hlobby
      split at hok
      next => simp at hok
      next target =>
        split at hok
        next => simp at hok
        next seat hseat =>
          split at hok
          next => simp at hok
          next t ht =>
            simp only [Except.ok.injEq] at hok
            subst hok
            refine ⟨h.maxOk, ?_, ?_, ?_⟩
            · show (List.map _ _).Nodup
              split
              · split
                · rw [updateFirst_map_eq (f := fun p => { p with seatIndex := t.seatIndex })
                      (fun p => p.id) (fun q => rfl),
                    updateFirst_map_eq (f := fun p => { p with seatIndex := seat })
                      (fun p => p.id) (fun q => rfl)]
                  exact h.idsNodup
                · rw [updateFirst_map_eq (f := fun p => { p with seatIndex := seat })
                      (fun p => p.id) (fun q => rfl)]
                  exact h.idsNodup
              · rw [updateFirst_map_eq (f := fun p => { p with seatIndex := seat })
                    (fun p => p.id) (fun q => rfl)]
                exact h.idsNodup
            · intro g hg
              rw [hlobby.2] at hg
              simp at hg
            · intro g hg
              rw [hlobby.2] at hg
              simp at hg

theorem inv_handleSetBotDifficulty {room room' : EuchreRoom} {pid : String}
    {d : Option BotDifficulty} (h : Inv room)
    (hok : handleSetBotDifficulty room pid d = .ok room') : Inv room' := by
  unfold handleSetBotDifficulty assertCreator at hok
  split at hok
  next => simp at hok
  next =>
    split at hok
    next => simp at hok
    next hlobby =>
      push_neg at hlobby
      split at hok
      next => simp at hok
      next =>
        simp only [Except.ok.injEq] at hok
        subst hok
        refine ⟨h.maxOk, h.idsNodup, ?_, ?_⟩
        · intro g hg
          rw [hlobby.2] at hg
          simp at hg
        · intro g hg
          rw [hlobby.2] at hg
          simp at hg

theorem inv_joinNewPlayer {room room' : EuchreRoom} {pid pname : String}
    (hfresh : ∀ p ∈ room.players, p.id ≠ pid) (h : Inv room)
    (hok : joinNewPlayer room pid pname = .ok room') : Inv room' := by
  unfold joinNewPlayer at hok
  split at hok
  next => simp at hok
  next hroomfull =>
    split at hok
    next => simp at hok
    next seat hseat =>
      simp only [Except.ok.injEq] at hok
      subst hok
      have hgame : room.game = none := by
        cases hg : room.game with
        | none => rfl
        | some g =>
          exfalso
          apply hroomfull
          rw [h.fourWhenGame g hg, h.maxOk]
      refine ⟨h.maxOk, ?_, ?_, ?_⟩
      · rw [List.map_append, List.nodup_append]
        refine ⟨h.idsNodup, by simp, ?_⟩
        intro x hx
        simp only [List.map_cons, List.map_nil, List.mem_cons, List.not_mem_nil, or_false]
        rcases List.mem_map.mp hx with ⟨p, hp, he⟩
        intro hxe
        exact hfresh p hp (he.trans hxe)
      · intro g hg
        rw [hgame] at hg
        simp at hg
      · intro g hg
        rw [hgame] at hg
        simp at hg

theorem inv_setConnected {room : EuchreRoom} {pid : String} {c : Bool} (h : Inv room) :
    Inv (setConnected room pid c) := by
  unfold setConnected
  refine ⟨h.maxOk, ?_, ?_, ?_⟩
  · show (List.map _ _).Nodup
    rw [updateFirst_map_eq (f := fun p => { p with connected := c })
      (fun p => p.id) (fun q => rfl)]
    exact h.idsNodup
  · intro g hg
    show (updateFirst _ _ room.players).length = ROOM_SIZE
    rw [updateFirst_length]
    exact h.fourWhenGame g hg
  · intro g hg
    refine phaseInv_preserve ?_ ?_ (h.phaseOk g hg)
    · show sumH (updateFirst _ _ _) = _
      unfold sumH
      rw [updateFirst_map_eq (f := fun p => { p with connected := c })
        (fun p => p.hand.length) (fun q => rfl)]
    · intro p hp
      exact updateFirst_id_seat (f := fun p => { p with connected := c })
        (fun q => rfl) (fun q => rfl) hp

theorem inv_createRoom (name : String) (password : Option String)
    (creatorToken firstPlayerId firstPlayerName : String) (bd : BotDifficulty) :
    Inv (createRoom name password creatorToken firstPlayerId firstPlayerName bd) := by
  refine ⟨rfl, by simp [createRoom], ?_, ?_⟩ <;> intro g hg <;> simp [createRoom] at hg

/-- Every room operation preserves the invariant. -/
theorem step_inv {a : Act} {r r' : EuchreRoom} (h : Inv r) (hs : Step a r r') :
    Inv r' := by
  cases hs with
  | pass hdeck hok => exact inv_handlePass (isFullDeck_length hdeck) h hok
  | orderUp hok => exact inv_handleOrderUp h hok
  | chooseTrump hok => exact inv_handleChooseTrump h hok
  | discard hok => exact inv_handleDiscard h hok
  | playCard hok => exact inv_handlePlayCard h hok
  | startNextHand hdeck hok => exact inv_handleStartNextHand (isFullDeck_length hdeck) h hok
  | restartMatch hdeck hok => exact inv_handleRestartMatch (isFullDeck_length hdeck) h hok
  | startRoom hdeck hd hok => exact inv_handleStartRoom (isFullDeck_length hdeck) h hok
  | addBot hfresh hok => exact inv_handleAddBot hfresh h hok
  | removeBot hok => exact inv_handleRemoveBot h hok
  | setSeat hok => exact inv_handleSetSeat h hok
  | setBotDifficulty hok => exact inv_handleSetBotDifficulty h hok
  | joinNew hfresh hok => exact inv_joinNewPlayer hfresh h hok
  | reconnect => exact inv_setConnected h
  | disconnect => exact inv_setConnected h

/-- The room invariant holds in every reachable room state. -/
theorem reachable_inv {r : EuchreRoom} (h : Reachable r) : Inv r := by
  induction h with
  | init name pw tok fid fname bd => exact inv_createRoom name pw tok fid fname bd
  | step _ hs ih => exact step_inv ih hs

theorem reachable_room4 : Reachable room4 := by
  have h0 : Reachable room0 := Reachable.init "r1" none "tok" "p0" "Alice" .medium
  have h1 : Reachable room1 :=
    h0.step (@Step.joinNew room0 "p1" "Bob" room1 (by decide) rfl)
  have h2 : Reachable room2 :=
    h1.step (@Step.joinNew room1 "p2" "Cara" room2 (by decide) rfl)
  have h3 : Reachable room3 :=
    h2.step (@Step.joinNew room2 "p3" "Dan" room3 (by decide) rfl)
  exact h3.step (@Step.startRoom deck1 3 room3 "p0" room4 (by decide) (by decide) rfl)

theorem reachable_lonerMidRoom : Reachable lonerMidRoom := by
  have h5 : Reachable room5 :=
    reachable_room4.step (@Step.pass deck1 room4 "p0" room5 (by decide) rfl)
  have h6 : Reachable room6 :=
    h5.step (@Step.pass deck1 room5 "p1" room6 (by decide) rfl)
  have h7 : Reachable room7 :=
    h6.step (@Step.pass deck1 room6 "p2" room7 (by decide) rfl)
  have h8 : Reachable room8 :=
    h7.step (@Step.pass deck1 room7 "p3" room8 (by decide) rfl)
  have h9 : Reachable room9 :=
    h8.step (@Step.chooseTrump room8 "p0" (some .spades) true room9 rfl)
  have h10 : Reachable room10 :=
    h9.step (@Step.playCard room9 "p0" (some "spades-J-1") room10 rfl)
  have h11 : Reachable room11 :=
    h10.step (@Step.playCard room10 "p1" (some "spades-10-1") room11 rfl)
  exact h11.step (@Step.playCard room11 "p3" (some "hearts-9-1") lonerMidRoom rfl)

theorem reachable_orderUpRoom : Reachable orderUpRoom :=
  reachable_room4.step (@Step.orderUp room4 "p0" false orderUpRoom rfl)

/-! ### Claim theorems -/

theorem rankStrength_eq_spec : ∀ (id : String) (s : Suit) (r : Rank) (tr ld : Suit),
    rankStrength ⟨id, s, r⟩ (some tr) (some ld) = rankStrengthSpec s r tr ld := by
  intro id s r tr ld
  cases s <;> cases r <;> cases tr <;> cases ld <;> rfl

theorem finalizeHand_players {room : EuchreRoom} :
    (finalizeHand room).players = room.players := by
  unfold finalizeHand
  cases room.game with
  | none => rfl
  | some g =>
    dsimp only
    cases g.makerTeam with
    | none => rfl
    | some mk => rfl

theorem finalizeHand_completedTricks {room : EuchreRoom} {g : EuchreGameState}
    (hg : room.game = some g) :
    ∃ g', (finalizeHand room).game = some g' ∧ g'.completedTricks = g.completedTricks := by
  unfold finalizeHand
  rw [hg]
  dsimp only
  cases g.makerTeam with
  | none => exact ⟨g, hg, rfl⟩
  | some mk => exact ⟨_, rfl, rfl⟩

theorem finalizeHand_game_eq {room room' : EuchreRoom} (h : finalizeHand room = room')
    {g : EuchreGameState} (hg : room.game = some g) :
    room'.players = room.players ∧
      ∃ g', room'.game = some g' ∧ g'.completedTricks = g.completedTricks := by
  subst h
  exact ⟨finalizeHand_players, finalizeHand_completedTricks hg⟩

/-- Claim C3: for every completed trick with trump S, the recorded
`winnerSeat` is the seat whose play maximizes `rankStrength` for S and
the effective suit of the trick's first card, where `rankStrength`
assigns right bower 100, left bower 99, trump A/K/Q/10/9 = 98..94,
on-lead-suit non-trump A/K/Q/J/10/9 = 60..55, and 0 off suit. -/
theorem C3_trick_winner :
    (∀ (id : String) (s : Suit) (r : Rank) (tr ld : Suit),
      rankStrength ⟨id, s, r⟩ (some tr) (some ld) = rankStrengthSpec s r tr ld) ∧
    (∀ (room : EuchreRoom) (pid : String) (cardId : Option String) (room' : EuchreRoom)
      (g g' : EuchreGameState) (t : CompletedTrick),
      handlePlayCard room pid cardId = .ok room' →
      room.game = some g → room'.game = some g' →
      g'.completedTricks = g.completedTricks ++ [t] →
      ∃ trump, g.trump = some trump ∧
        ∃ w ∈ t.cards,
          (∃ p ∈ room'.players, p.id = w.playerId ∧ t.winnerSeat = p.seatIndex) ∧
          ∀ c0 rest, t.cards = c0 :: rest →
            ∀ q ∈ t.cards,
              rankStrength q.card (some trump) (some (effectiveSuit c0.card trump)) ≤
                rankStrength w.card (some trump) (some (effectiveSuit c0.card trump))) := by
  refine ⟨rankStrength_eq_spec, ?_⟩
  intro room pid cardId room' g g' t hok hg hg' ht
  unfold handlePlayCard at hok
  rw [hg] at hok
  dsimp only at hok
  by_cases hph : g.phase ≠ Phase.playing
  · rw [if_pos hph] at hok; simp at hok
  · rw [if_neg hph] at hok
    cases hcp : getSeatPlayer room g.turnSeat with
    | none => rw [hcp] at hok; simp at hok
    | some cp =>
      rw [hcp] at hok
      dsimp only at hok
      by_cases hid : cp.id ≠ pid
      · rw [if_pos hid] at hok; simp at hok
      · rw [if_neg hid] at hok
        by_cases hact : (!(isPlayerActiveForPlay room cp)) = true
        · rw [if_pos hact] at hok; simp at hok
        · rw [if_neg hact] at hok
          cases hcid : cardId with
          | none => rw [hcid] at hok; simp at hok
          | some cid =>
            rw [hcid] at hok
            dsimp only at hok
            by_cases hlegal : (!((getLegalPlays room pid).contains cid)) = true
            · rw [if_pos hlegal] at hok; simp at hok
            · rw [if_neg hlegal] at hok
              cases hfind : cp.hand.find? (fun c => c.id == cid) with
              | none => rw [hfind] at hok; simp at hok
              | some card =>
                rw [hfind] at hok
                dsimp only at hok
                split at hok
                next hfull =>
                  -- no trick was completed, contradicting the appended trick
                  exfalso
                  simp only [Except.ok.injEq] at hok
                  subst hok
                  simp only [Option.some.injEq] at hg'
                  rw [← hg'] at ht
                  have := congrArg List.length ht
                  simp at this
                next hfull =>
                  cases htrv : g.trump with
                  | none => rw [htrv] at hok; simp at hok
                  | some trump =>
                    rw [htrv] at hok
                    dsimp only at hok
                    split at hok
                    next hwf => simp at hok
                    next w hwf =>
                      refine ⟨trump, rfl, ?_⟩
                      have hwmem := List.mem_of_find?_eq_some hwf
                      have hwid : w.id = resolveTrickWinner
                          (g.currentTrick ++ [{ playerId := pid, card := card }]) trump := by
                        simpa using List.find?_some hwf
                      -- in both branches the new completed trick is the
                      -- current trick extended by the played card
                      have hnewt : t = (⟨g.trickIndex, w.seatIndex,
                          g.currentTrick ++ [{ playerId := pid, card := card }]⟩ : CompletedTrick) ∧
                          room'.players = updateFirst (fun p => p.seatIndex == g.turnSeat)
                            (fun p => { p with hand := removeFirstCard cid p.hand })
                            room.players := by
                        split at hok
                        next hti =>
                          simp only [Except.ok.injEq] at hok
                          obtain ⟨hpl, g2, hg2, hg2c⟩ := finalizeHand_game_eq hok rfl
                          rw [hg'] at hg2
                          simp only [Option.some.injEq] at hg2
                          subst hg2
                          dsimp only at hg2c
                          rw [hg2c] at ht
                          have := List.append_cancel_left ht
                          simp only [List.cons.injEq, and_true] at this
                          exact ⟨this.symm, hpl⟩
                        next hti =>
                          simp only [Except.ok.injEq] at hok
                          subst hok
                          simp only [Option.some.injEq] at hg'
                          rw [← hg'] at ht
                          dsimp only at ht
                          have := List.append_cancel_left ht
                          simp only [List.cons.injEq, and_true] at this
                          exact ⟨this.symm, rfl⟩
                      obtain ⟨hteq, hpl⟩ := hnewt
                      have hne : g.currentTrick ++
                          [{ playerId := pid, card := card : TrickPlay }] ≠ [] := by simp
                      obtain ⟨c0, rest, heq⟩ := List.exists_cons_of_ne_nil hne
                      obtain ⟨wplay, hwp, hwid2, hwmax⟩ :=
                        @resolveTrickWinner_spec c0 rest trump
                      refine ⟨wplay, ?_, ⟨w, ?_, ?_, ?_⟩, ?_⟩
                      · rw [hteq]
                        exact heq ▸ hwp
                      · rw [hpl]
                        exact hwmem
                      · rw [hwid, heq, hwid2]
                      · rw [hteq]
                      · intro d0 drest hd q hq
                        have hd' : c0 = d0 := by
                          rw [hteq] at hd
                          dsimp only at hd
                          rw [heq] at hd
                          exact (List.cons.injEq _ _ _ _).mp hd |>.1
                        rw [← hd']
                        apply hwmax
                        rw [← heq]
                        rw [hteq] at hq
                        exact hq

/-- Claim C2: in the playing phase, on the turn of an active player, the
legal-play set follows the lead's effective suit whenever the hand holds
a card of that effective suit, and is the entire hand otherwise; with no
lead it is the entire hand. -/
theorem C2_legal_plays :
    ∀ (room : EuchreRoom) (pid : String) (g : EuchreGameState)
      (player : PlayerState) (tr : Suit),
      room.game = some g → g.phase = Phase.playing →
      getPlayerById room pid = some player → g.turnSeat = player.seatIndex →
      (∀ s, g.sittingOutSeat = some s → s ≠ player.seatIndex) →
      g.trump = some tr →
      ((g.currentTrick = [] → getLegalPlays room pid = player.hand.map (fun c => c.id)) ∧
       (∀ lead rest, g.currentTrick = lead :: rest →
         (∀ cid ∈ getLegalPlays room pid, ∃ c ∈ player.hand, c.id = cid ∧
            effectiveSuit c tr = effectiveSuit lead.card tr) ∨
         ((∀ c ∈ player.hand, effectiveSuit c tr ≠ effectiveSuit lead.card tr) ∧
            getLegalPlays room pid = player.hand.map (fun c => c.id)))) := by
  intro room pid g player tr hg hph hp ht hsit htr
  have hact : isPlayerActiveForPlay room player = true := by
    unfold isPlayerActiveForPlay
    rw [hg]
    dsimp only
    rw [if_pos hph]
    rw [Bool.not_eq_true']
    unfold isSeatSittingOut
    rw [hg]
    dsimp only
    cases hso : g.sittingOutSeat with
    | none => rfl
    | some s =>
      rw [beq_eq_false_iff_ne]
      exact hsit s hso
  have hkey : getLegalPlays room pid =
      match g.currentTrick with
      | [] => player.hand.map (fun c => c.id)
      | lead :: _ =>
        if (player.hand.filter (fun c =>
            effectiveSuit c tr == effectiveSuit lead.card tr)).isEmpty
        then player.hand.map (fun c => c.id)
        else (player.hand.filter (fun c =>
            effectiveSuit c tr == effectiveSuit lead.card tr)).map (fun c => c.id) := by
    unfold getLegalPlays
    rw [hg]
    dsimp only
    rw [hp]
    dsimp only
    rw [ht, hph, htr, hact]
    simp only [ne_eq, not_true_eq_false, if_false, Bool.not_true, Bool.false_eq_true,
      reduceCtorEq, not_false_eq_true, if_true]
  constructor
  · intro hcur
    rw [hkey, hcur]
  · intro lead rest hcur
    rw [hkey, hcur]
    dsimp only
    by_cases hemp : (player.hand.filter (fun c =>
        effectiveSuit c tr == effectiveSuit lead.card tr)).isEmpty = true
    · refine Or.inr ⟨?_, by rw [if_pos hemp]⟩
      intro c hc hce
      rw [List.isEmpty_iff] at hemp
      have : c ∈ player.hand.filter (fun c =>
          effectiveSuit c tr == effectiveSuit lead.card tr) := by
        rw [List.mem_filter]
        exact ⟨hc, by rw [hce]; exact beq_self_eq_true _⟩
      rw [hemp] at this
      simp at this
    · refine Or.inl ?_
      rw [if_neg hemp]
      intro cid hcid
      rcases List.mem_map.mp hcid with ⟨c, hc, hce⟩
      rw [List.mem_filter] at hc
      exact ⟨c, hc.1, hce, by have := hc.2; rwa [beq_iff_eq] at this⟩

theorem awardForHand_maker {mk : TeamId} {t : Nat} {al : Bool} (h3 : 3 ≤ t) :
    (awardForHand mk t al).1 = mk := by
  unfold awardForHand
  rw [if_pos h3]

theorem awardForHand_one {mk : TeamId} {t : Nat} {al : Bool} (h34 : t = 3 ∨ t = 4) :
    (awardForHand mk t al).2 = 1 := by
  unfold awardForHand
  rw [if_pos (by omega : t ≥ 3)]
  have h5 : t ≠ 5 := by omega
  simp [h5]

theorem awardForHand_sweep {mk : TeamId} {t : Nat} (h5 : t = 5) :
    (awardForHand mk t false).2 = 2 := by
  unfold awardForHand
  rw [if_pos (by omega : t ≥ 3)]
  simp [h5]

theorem awardForHand_alone_sweep {mk : TeamId} {t : Nat} (h5 : t = 5) :
    (awardForHand mk t true).2 = 4 := by
  unfold awardForHand
  rw [if_pos (by omega : t ≥ 3)]
  simp [h5]

theorem awardForHand_euchred {mk : TeamId} {t : Nat} {al : Bool} (h2 : t ≤ 2) :
    awardForHand mk t al =
      (if mk = TeamId.team0 then TeamId.team1 else TeamId.team0, 2) := by
  unfold awardForHand
  rw [if_neg (by omega)]

theorem phaseAfterHand_eq (score : Score) :
    phaseAfterHand score =
      (if TARGET_SCORE ≤ score.team0 ∨ TARGET_SCORE ≤ score.team1
       then Phase.gameOver else Phase.handOver) := by
  unfold phaseAfterHand winningTeamOf
  by_cases h0 : score.team0 ≥ TARGET_SCORE
  · simp [h0]
  · by_cases h1 : score.team1 ≥ TARGET_SCORE <;> simp [h0, h1]

/-- Claim C1: finalizing a hand after the 5th trick awards the maker
team 1 point for 3-4 tricks, 2 for a non-loner sweep, 4 for a loner
sweep, and the defenders 2 points for maker tricks at most 2; the
summary satisfies makerTricks + defenderTricks = 5; the score increases
by the award; and the phase becomes game-over exactly when a team
reaches `TARGET_SCORE`, else hand-over. -/
theorem C1_finalize_hand :
    ∀ (room : EuchreRoom) (g : EuchreGameState) (mk : TeamId),
      room.game = some g → g.makerTeam = some mk → g.completedTricks.length = 5 →
      ∃ g', (finalizeHand room).game = some g' ∧
        ∃ hs, g'.handSummary = some hs ∧
          hs.makerTeam = mk ∧
          hs.makerTricks =
            (g.completedTricks.filter (fun tr => getTeamForSeat tr.winnerSeat == mk)).length ∧
          hs.makerTricks + hs.defenderTricks = 5 ∧
          (3 ≤ hs.makerTricks → hs.awardedTo = mk) ∧
          (hs.makerTricks = 3 ∨ hs.makerTricks = 4 → hs.pointsAwarded = 1) ∧
          (hs.makerTricks = 5 → g.goingAlonePlayerId = none → hs.pointsAwarded = 2) ∧
          (hs.makerTricks = 5 → g.goingAlonePlayerId ≠ none → hs.pointsAwarded = 4) ∧
          (hs.makerTricks ≤ 2 →
            hs.awardedTo = (if mk = TeamId.team0 then TeamId.team1 else TeamId.team0) ∧
            hs.pointsAwarded = 2) ∧
          (finalizeHand room).score = addScore room.score hs.awardedTo hs.pointsAwarded ∧
          g'.phase = (if TARGET_SCORE ≤ (finalizeHand room).score.team0 ∨
              TARGET_SCORE ≤ (finalizeHand room).score.team1
            then Phase.gameOver else Phase.handOver) := by
  intro room g mk hg hmk hlen
  have hT : (g.completedTricks.filter
      (fun tr => getTeamForSeat tr.winnerSeat == mk)).length ≤ 5 := by
    calc (g.completedTricks.filter (fun tr => getTeamForSeat tr.winnerSeat == mk)).length
        ≤ g.completedTricks.length := List.length_filter_le _ _
      _ = 5 := hlen
  unfold finalizeHand
  rw [hg]
  dsimp only
  rw [hmk]
  dsimp only
  refine ⟨_, rfl, _, rfl, rfl, rfl, ?_, ?_, ?_, ?_, ?_, ?_, rfl, ?_⟩
  · dsimp only
    unfold ROOM_SIZE
    omega
  · intro h3
    exact awardForHand_maker h3
  · intro h34
    exact awardForHand_one h34
  · intro h5 hnone
    have : g.goingAlonePlayerId.isSome = false := by rw [hnone]; rfl
    rw [this]
    exact awardForHand_sweep h5
  · intro h5 hsome
    have : g.goingAlonePlayerId.isSome = true := Option.isSome_iff_ne_none.mpr hsome
    rw [this]
    exact awardForHand_alone_sweep h5
  · intro h2
    rw [awardForHand_euchred h2]
    exact ⟨rfl, rfl⟩
  · exact phaseAfterHand_eq _

/-- Claim C7: when the dealer passes last in bidding round two (all four
passed), the hand is redealt from a fresh deck, the phase returns to
bidding round one, the new dealer is one seat clockwise from the old
one, and the score is unchanged. -/
theorem C7_all_pass_redeal :
    ∀ (deck : List Card) (room : EuchreRoom) (g : EuchreGameState)
      (p : PlayerState) (pid : String),
      room.game = some g → g.phase = Phase.biddingRound2 →
      g.turnSeat = g.dealerSeat →
      getSeatPlayer room g.turnSeat = some p → p.id = pid →
      room.players.length = ROOM_SIZE →
      ∃ room', handlePass deck room pid = .ok room' ∧
        ∃ g', room'.game = some g' ∧
          g'.phase = Phase.biddingRound1 ∧
          g'.dealerSeat = nextSeat g.dealerSeat ∧
          g'.turnSeat = nextSeat g'.dealerSeat ∧
          room'.score = room.score ∧
          room'.players = dealHands deck room.players ∧
          g'.upcard = (deck.drop 20).head? ∧
          g'.kitty = deck.drop 21 ∧
          g'.trump = none ∧ g'.blockedSuit = none := by
  intro deck room g p pid hg hph ht hcp hpid hlen
  unfold handlePass
  rw [hg]
  dsimp only
  rw [hcp]
  dsimp only
  rw [if_neg (by rw [hpid]; exact fun hne => hne rfl)]
  rw [if_neg (by rw [hph]; exact fun hne => Phase.noConfusion hne)]
  rw [if_pos hph]
  rw [if_pos (by rw [ht])]
  refine ⟨_, rfl, ?_⟩
  unfold startNewHandWith
  rw [if_neg (by rw [hlen]; exact fun hne => hne rfl)]
  exact ⟨_, rfl, rfl, rfl, rfl, rfl, rfl, rfl, rfl, rfl, rfl⟩

/-- Counterexample to claim C4 as stated: in a reachable loner hand
(`lonerMidRoom`, one completed trick of three cards), the sum of hand
sizes plus the current trick plus four cards per completed trick is 21,
not 20. -/
theorem C4_counterexample :
    Reachable lonerMidRoom ∧
    lonerMidRoom.game = some lonerMidGame ∧
    lonerMidGame.phase = Phase.playing ∧
    lonerMidGame.sittingOutSeat = some 2 ∧
    sumHands lonerMidRoom + lonerMidGame.currentTrick.length +
      4 * lonerMidGame.completedTricks.length = 21 ∧
    ¬(sumHands lonerMidRoom + lonerMidGame.currentTrick.length +
      4 * lonerMidGame.completedTricks.length = 20) :=
  ⟨reachable_lonerMidRoom, rfl, by decide, by decide, by decide, by decide⟩

/-- Claim C4, amended: in every reachable playing-phase room state, the
sum of hand sizes plus the current trick length plus `activeSeatCount`
cards per completed trick is 20, where the active seat count is 4
normally and 3 during a loner hand (the sitting-out seat's hand stays
dealt but unused). -/
theorem C4_card_conservation :
    ∀ (r : EuchreRoom) (g : EuchreGameState), Reachable r → r.game = some g →
      g.phase = Phase.playing →
      sumHands r + g.currentTrick.length +
        activeSeatCountForPlay r * g.completedTricks.length = 20 ∧
      (g.sittingOutSeat = none → activeSeatCountForPlay r = 4) ∧
      (∀ s, g.sittingOutSeat = some s → activeSeatCountForPlay r = 3) := by
  intro r g hr hg hph
  have hinv := reachable_inv hr
  obtain ⟨htr, hident, hlt, hturn, htrick⟩ := phaseInv_playing (hinv.phaseOk g hg) hph
  have ha : activeSeatCountForPlay r = activeCount g := activeSeatCount_eq hg
  refine ⟨by rw [ha]; exact hident, ?_, ?_⟩
  · intro hnone
    rw [ha]
    unfold activeCount
    rw [hnone]
    rfl
  · intro s hs
    rw [ha]
    unfold activeCount
    rw [hs]
    rfl

/-- Witness for the amended claim C4 at the reachable loner state:
17 cards in hands + 0 in the current trick + 3·1 completed = 20. -/
theorem C4_card_conservation_witness :
    sumHands lonerMidRoom + lonerMidGame.currentTrick.length +
      activeSeatCountForPlay lonerMidRoom * lonerMidGame.completedTricks.length = 20 ∧
    activeSeatCountForPlay lonerMidRoom = 3 :=
  ⟨(C4_card_conservation lonerMidRoom lonerMidGame reachable_lonerMidRoom rfl (by decide)).1,
   (C4_card_conservation lonerMidRoom lonerMidGame reachable_lonerMidRoom rfl
     (by decide)).2.2 2 (by decide)⟩

theorem addScore_le (s : Score) (t : TeamId) (pts : Nat) :
    s.team0 ≤ (addScore s t pts).team0 ∧ s.team1 ≤ (addScore s t pts).team1 := by
  cases t <;> simp [addScore]

theorem score_startNewHandWith {deck : List Card} {d : Nat} {room : EuchreRoom} :
    (startNewHandWith deck d false room).score = room.score := by
  unfold startNewHandWith
  split
  · rfl
  · rfl

theorem score_startPlayingPhase {room : EuchreRoom} :
    (startPlayingPhase room).score = room.score := by
  unfold startPlayingPhase
  split
  · rfl
  · split <;> rfl

theorem score_finalizeHand {room : EuchreRoom} :
    room.score.team0 ≤ (finalizeHand room).score.team0 ∧
    room.score.team1 ≤ (finalizeHand room).score.team1 := by
  unfold finalizeHand
  split
  · exact ⟨le_refl _, le_refl _⟩
  · split
    · exact ⟨le_refl _, le_refl _⟩
    · exact addScore_le _ _ _

theorem score_finalizeHand_eq {room room' : EuchreRoom}
    (h : finalizeHand room = room') :
    room.score.team0 ≤ room'.score.team0 ∧ room.score.team1 ≤ room'.score.team1 :=
  h ▸ score_finalizeHand

theorem score_handlePass {deck : List Card} {room : EuchreRoom} {pid : String}
    {room' : EuchreRoom} (hok : handlePass deck room pid = .ok room') :
    room'.score = room.score := by
  unfold handlePass at hok
  dsimp only at hok
  split at hok
  · simp only [Except.ok.injEq] at hok; subst hok; rfl
  · split at hok
    · simp at hok
    · split at hok
      · simp at hok
      · split at hok
        · split at hok
          · simp only [Except.ok.injEq] at hok; subst hok; rfl
          · simp only [Except.ok.injEq] at hok; subst hok; rfl
        · split at hok
          · split at hok
            · simp only [Except.ok.injEq] at hok; subst hok
              exact score_startNewHandWith
            · simp only [Except.ok.injEq] at hok; subst hok; rfl
          · simp at hok

theorem score_handleOrderUp {room : EuchreRoom} {pid : String} {alone : Bool}
    {room' : EuchreRoom} (hok : handleOrderUp room pid alone = .ok room') :
    room'.score = room.score := by
  unfold handleOrderUp at hok
  dsimp only at hok
  split at hok
  · simp at hok
  · split at hok
    · simp at hok
    · split at hok
      · simp at hok
      · split at hok
        · simp at hok
        · split at hok
          · simp at hok
          · split at hok
            · simp at hok
            · simp only [Except.ok.injEq] at hok; subst hok; rfl

theorem score_handleChooseTrump {room : EuchreRoom} {pid : String}
    {suit : Option Suit} {alone : Bool} {room' : EuchreRoom}
    (hok : handleChooseTrump room pid suit alone = .ok room') :
    room'.score = room.score := by
  unfold handleChooseTrump at hok
  dsimp only at hok
  split at hok
  · simp at hok
  · split at hok
    · simp at hok
    · split at hok
      · simp at hok
      · split at hok
        · simp at hok
        · split at hok
          · simp at hok
          · split at hok
            · simp at hok
            · simp only [Except.ok.injEq] at hok; subst hok
              exact score_startPlayingPhase

theorem score_handleDiscard {room : EuchreRoom} {pid : String}
    {cardId : Option String} {room' : EuchreRoom}
    (hok : handleDiscard room pid cardId = .ok room') :
    room'.score = room.score := by
  unfold handleDiscard at hok
  dsimp only at hok
  split at hok
  · simp at hok
  · split at hok
    · simp at hok
    · split at hok
      · simp at hok
      · split at hok
        · simp at hok
        · split at hok
          · simp at hok
          · split at hok
            · simp at hok
            · simp only [Except.ok.injEq] at hok; subst hok
              exact score_startPlayingPhase

theorem score_handlePlayCard {room : EuchreRoom} {pid : String}
    {cardId : Option String} {room' : EuchreRoom}
    (hok : handlePlayCard room pid cardId = .ok room') :
    room.score.team0 ≤ room'.score.team0 ∧ room.score.team1 ≤ room'.score.team1 := by
  unfold handlePlayCard at hok
  dsimp only at hok
  split at hok
  · simp at hok
  · split at hok
    · simp at hok
    · split at hok
      · simp at hok
      · split at hok
        · simp at hok
        · split at hok
          · simp at hok
          · split at hok
            · simp at hok
            · split at hok
              · simp at hok
              · split at hok
                · simp at hok
                · split at hok
                  · simp only [Except.ok.injEq] at hok; subst hok
                    exact ⟨le_refl _, le_refl _⟩
                  · split at hok
                    · simp at hok
                    · split at hok
                      · simp at hok
                      · split at hok
                        · simp only [Except.ok.injEq] at hok
                          have h2 := score_finalizeHand_eq hok
                          exact h2
                        · simp only [Except.ok.injEq] at hok; subst hok
                          exact ⟨le_refl _, le_refl _⟩

theorem score_handleStartNextHand {deck : List Card} {room room' : EuchreRoom}
    (hok : handleStartNextHand deck room = .ok room') :
    room'.score = room.score := by
  unfold handleStartNextHand at hok
  split at hok
  · simp at hok
  · split at hok
    · simp at hok
    · split at hok
      · simp at hok
      · simp only [Except.ok.injEq] at hok; subst hok
        exact score_startNewHandWith

theorem score_handleStartRoom {deck : List Card} {d : Nat} {room room' : EuchreRoom}
    {pid : String} (hok : handleStartRoom deck d room pid = .ok room') :
    room'.score = room.score := by
  unfold handleStartRoom at hok
  split at hok
  · simp at hok
  · split at hok
    · simp at hok
    · split at hok
      · simp at hok
      · simp only [Except.ok.injEq] at hok; subst hok
        exact score_startNewHandWith

theorem score_handleAddBot {room room' : EuchreRoom} {pid botId botName : String}
    (hok : handleAddBot room pid botId botName = .ok room') :
    room'.score = room.score := by
  unfold handleAddBot at hok
  dsimp only at hok
  split at hok
  · simp at hok
  · split at hok
    · simp at hok
    · split at hok
      · simp at hok
      · split at hok
        · simp at hok
        · simp only [Except.ok.injEq] at hok; subst hok; rfl

theorem score_handleRemoveBot {room room' : EuchreRoom} {pid : String}
    (hok : handleRemoveBot room pid = .ok room') : room'.score = room.score := by
  unfold handleRemoveBot at hok
  dsimp only at hok
  split at hok
  · simp at hok
  · split at hok
    · simp at hok
    · split at hok
      · simp at hok
      · simp only [Except.ok.injEq] at hok; subst hok; rfl

theorem score_handleSetSeat {room room' : EuchreRoom} {pid : String}
    {targetId : Option String} {seatIndex : Option Nat}
    (hok : handleSetSeat room pid targetId seatIndex = .ok room') :
    room'.score = room.score := by
  unfold handleSetSeat at hok
  dsimp only at hok
  split at hok
  · simp at hok
  · split at hok
    · simp at hok
    · split at hok
      · simp at hok
      · split at hok
        · simp at hok
        · split at hok
          · simp at hok
          · simp only [Except.ok.injEq] at hok; subst hok; rfl

theorem score_handleSetBotDifficulty {room room' : EuchreRoom} {pid : String}
    {d : Option BotDifficulty}
    (hok : handleSetBotDifficulty room pid d = .ok room') :
    room'.score = room.score := by
  unfold handleSetBotDifficulty at hok
  split at hok
  · simp at hok
  · split at hok
    · simp at hok
    · split at hok
      · simp at hok
      · simp only [Except.ok.injEq] at hok; subst hok; rfl

theorem score_joinNewPlayer {room room' : EuchreRoom} {pid pname : String}
    (hok : joinNewPlayer room pid pname = .ok room') : room'.score = room.score := by
  unfold joinNewPlayer at hok
  split at hok
  · simp at hok
  · split at hok
    · simp at hok
    · simp only [Except.ok.injEq] at hok; subst hok; rfl

/-- Counterexample to claim C6 as stated: the restart-match operation on
a finished match (score 12-3) zeroes the score, so `score.team0`
decreases. -/
theorem C6_counterexample :
    Step (Act.restartMatch deck1) sweepOverRoom restartedRoom ∧
    sweepOverRoom.score.team0 = 12 ∧
    restartedRoom.score.team0 = 0 ∧
    restartedRoom.score.team0 < sweepOverRoom.score.team0 :=
  ⟨Step.restartMatch (by decide) rfl, by decide, by decide, by decide⟩

/-- Claim C6, amended: under every room operation except restart-match
(which zeroes the score after game-over), `score.team0` and
`score.team1` never decrease. -/
theorem C6_score_monotone :
    ∀ (a : Act) (r r' : EuchreRoom), Step a r r' →
      (∀ deck, a ≠ Act.restartMatch deck) →
      r.score.team0 ≤ r'.score.team0 ∧ r.score.team1 ≤ r'.score.team1 := by
  intro a r r' hs hne
  cases hs with
  | pass hdeck hok => rw [score_handlePass hok]; exact ⟨le_refl _, le_refl _⟩
  | orderUp hok => rw [score_handleOrderUp hok]; exact ⟨le_refl _, le_refl _⟩
  | chooseTrump hok => rw [score_handleChooseTrump hok]; exact ⟨le_refl _, le_refl _⟩
  | discard hok => rw [score_handleDiscard hok]; exact ⟨le_refl _, le_refl _⟩
  | playCard hok => exact score_handlePlayCard hok
  | startNextHand hdeck hok => rw [score_handleStartNextHand hok]; exact ⟨le_refl _, le_refl _⟩
  | restartMatch hdeck hok => exact absurd rfl (hne _)
  | startRoom hdeck hd hok => rw [score_handleStartRoom hok]; exact ⟨le_refl _, le_refl _⟩
  | addBot hfresh hok => rw [score_handleAddBot hok]; exact ⟨le_refl _, le_refl _⟩
  | removeBot hok => rw [score_handleRemoveBot hok]; exact ⟨le_refl _, le_refl _⟩
  | setSeat hok => rw [score_handleSetSeat hok]; exact ⟨le_refl _, le_refl _⟩
  | setBotDifficulty hok => rw [score_handleSetBotDifficulty hok]; exact ⟨le_refl _, le_refl _⟩
  | joinNew hfresh hok => rw [score_joinNewPlayer hok]; exact ⟨le_refl _, le_refl _⟩
  | reconnect => exact ⟨le_refl _, le_refl _⟩
  | disconnect => exact ⟨le_refl _, le_refl _⟩

/-- Witness for the amended claim C6 at a concrete non-restart step of
the trace (the trick-completing card play). -/
theorem C6_score_monotone_witness :
    room11.score.team0 ≤ lonerMidRoom.score.team0 ∧
    room11.score.team1 ≤ lonerMidRoom.score.team1 :=
  C6_score_monotone _ room11 lonerMidRoom
    (@Step.playCard room11 "p3" (some "hearts-9-1") lonerMidRoom rfl)
    (fun _ h => Act.noConfusion h)

/-- Claim C8: a failing in-room action leaves the room unchanged and
produces exactly one `error` frame addressed to the offending session;
in particular a round-two `choose-trump` naming the blocked suit fails
this way, with `turnSeat` remaining on the offender. -/
theorem C8_error_isolated :
    (∀ (ctx : ActionContext) (sessions : List SessionAttachment) (room : EuchreRoom)
       (sender : SessionAttachment) (action : ClientAction) (e : String),
      handleAction ctx room sender.playerId action = .error e →
      webSocketMessageModel ctx sessions room sender action =
        (room, [(sender.sessionId, ServerFrame.error e)])) ∧
    (∀ (room : EuchreRoom) (g : EuchreGameState) (p : PlayerState) (pid : String)
       (su : Suit) (alone : Bool),
      room.game = some g → g.phase = Phase.biddingRound2 → g.blockedSuit = some su →
      getSeatPlayer room g.turnSeat = some p → p.id = pid →
      handleChooseTrump room pid (some su) alone =
        .error "You cannot choose the turned-down suit." ∧
      g.turnSeat = p.seatIndex ∧
      (∀ (ctx : ActionContext) (sessions : List SessionAttachment)
        (sender : SessionAttachment), sender.playerId = pid →
        webSocketMessageModel ctx sessions room sender
          (ClientAction.chooseTrump (some su) alone) =
          (room, [(sender.sessionId,
            ServerFrame.error "You cannot choose the turned-down suit.")]))) := by
  have herr : ∀ (ctx : ActionContext) (sessions : List SessionAttachment)
      (room : EuchreRoom) (sender : SessionAttachment) (action : ClientAction)
      (e : String),
      handleAction ctx room sender.playerId action = .error e →
      webSocketMessageModel ctx sessions room sender action =
        (room, [(sender.sessionId, ServerFrame.error e)]) := by
    intro ctx sessions room sender action e he
    unfold webSocketMessageModel
    rw [he]
  refine ⟨herr, ?_⟩
  intro room g p pid su alone hg hph hbl hcp hpid
  have hblocked : handleChooseTrump room pid (some su) alone =
      .error "You cannot choose the turned-down suit." := by
    unfold handleChooseTrump
    rw [hg]
    dsimp only
    rw [if_neg (by rw [hph]; exact fun hne => hne rfl)]
    rw [hcp]
    dsimp only
    rw [if_neg (by rw [hpid]; exact fun hne => hne rfl)]
    rw [if_pos hbl]
  refine ⟨hblocked, (getSeatPlayer_seat hcp).symm, ?_⟩
  intro ctx sessions sender hsid
  apply herr
  show handleChooseTrump room sender.playerId (some su) alone = _
  rw [hsid, hblocked]

/-- Counterexample to claim C9 as stated: after a round-one order-up the
upcard joins the dealer's hand but keeps appearing in every snapshot, so
a card of another player's unplayed hand occurs in the snapshot built
for viewer `p1` of the reachable room `orderUpRoom`. -/
theorem C9_counterexample :
    Reachable orderUpRoom ∧
    (orderUpRoom.players.any
      (fun p => p.id != "p1" && p.hand.contains upcardHeartsA)) = true ∧
    ((cardsInView (buildClientState orderUpRoom "p1")).contains upcardHeartsA) = true ∧
    (∀ y, (buildClientState orderUpRoom "p1").you = some y → upcardHeartsA ∉ y.hand) :=
  ⟨reachable_orderUpRoom, by decide, by decide, by decide⟩

/-- Claim C9, amended: the snapshot carries a full card list only for the
viewer's own hand; every other player appears with a hand count only; and
any card occurring anywhere in the snapshot is either in the viewer's own
hand, the publicly visible upcard (which after an order-up also sits in
the dealer's hand), or a played card of the current or completed tricks. -/
theorem C9_snapshot_privacy :
    ∀ (room : EuchreRoom) (vid : String),
      (∀ y, (buildClientState room vid).you = some y →
        ∃ me ∈ room.players, me.id = vid ∧ y.hand = me.hand) ∧
      (∀ pv ∈ (buildClientState room vid).players,
        ∃ p ∈ room.players, pv.id = p.id ∧ pv.handCount = p.hand.length) ∧
      (∀ c ∈ cardsInView (buildClientState room vid),
        (∃ me ∈ room.players, me.id = vid ∧ c ∈ me.hand) ∨
        (∃ g, room.game = some g ∧
          (g.upcard = some c ∨ (∃ play ∈ g.currentTrick, play.card = c) ∨
           (∃ t ∈ g.completedTricks, ∃ play ∈ t.cards, play.card = c)))) := by
  intro room vid
  refine ⟨?_, ?_, ?_⟩
  · intro y hy
    unfold buildClientState at hy
    dsimp only at hy
    cases hf : room.players.find? (fun p => p.id == vid) with
    | none => rw [hf] at hy; exact absurd hy (by exact fun h => Option.noConfusion h)
    | some m =>
      rw [hf] at hy
      simp only [Option.map_some', Option.some.injEq] at hy
      refine ⟨m, List.mem_of_find?_eq_some hf, ?_, ?_⟩
      · have := List.find?_some hf
        simpa using this
      · rw [← hy]
  · intro pv hpv
    unfold buildClientState at hpv
    dsimp only at hpv
    rcases List.mem_map.mp hpv with ⟨p, hp, he⟩
    have hmem : p ∈ room.players :=
      (List.perm_insertionSort (fun a b => a.seatIndex ≤ b.seatIndex) room.players).mem_iff.mp hp
    exact ⟨p, hmem, by rw [← he], by rw [← he]⟩
  · intro c hc
    unfold cardsInView at hc
    rcases List.mem_append.mp hc with hyou | hgame
    · left
      unfold buildClientState at hyou
      dsimp only at hyou
      cases hf : room.players.find? (fun p => p.id == vid) with
      | none => rw [hf] at hyou; simp at hyou
      | some m =>
        rw [hf] at hyou
        simp only [Option.map_some'] at hyou
        refine ⟨m, List.mem_of_find?_eq_some hf, ?_, hyou⟩
        have := List.find?_some hf
        simpa using this
    · right
      unfold buildClientState at hgame
      dsimp only at hgame
      cases hr : room.game with
      | none => rw [hr] at hgame; simp at hgame
      | some g =>
        rw [hr] at hgame
        simp only [Option.map_some'] at hgame
        refine ⟨g, rfl, ?_⟩
        rcases List.mem_append.mp hgame with h1 | h2
        · rcases List.mem_append.mp h1 with hu | htr
          · left
            cases hup : g.upcard with
            | none => rw [hup] at hu; simp at hu
            | some u =>
              rw [hup] at hu
              simp only [List.mem_singleton] at hu
              rw [hu]
          · right
            left
            rcases List.mem_map.mp htr with ⟨tv, htv, he⟩
            rcases List.mem_map.mp htv with ⟨play, hplay, he2⟩
            exact ⟨play, hplay, by rw [← he, ← he2]⟩
        · right
          right
          rcases List.mem_flatMap.mp h2 with ⟨t, ht, hct⟩
          rcases List.mem_map.mp hct with ⟨play, hplay, he⟩
          exact ⟨t, ht, play, hplay, he⟩

/-- Counterexample to claim C10 as stated: on a 31-character input the
player name is cut to 24 characters (not 40), and the room name keeps
all 31 characters (not 24) — the code applies the 40-character limit to
the room name and the 24-character limit to the player name, the
opposite of the claim. -/
theorem C10_counterexample :
    sanitizePlayerName (some "abcdefghijklmnopqrstuvwxyz01234") ≠
      String.mk ((trimChars "abcdefghijklmnopqrstuvwxyz01234".data).take 40) ∧
    sanitizeRoomName (some "abcdefghijklmnopqrstuvwxyz01234") ≠
      String.mk ((trimChars "abcdefghijklmnopqrstuvwxyz01234".data).take 24) ∧
    (sanitizePlayerName (some "abcdefghijklmnopqrstuvwxyz01234")).data.length = 24 ∧
    (sanitizeRoomName (some "abcdefghijklmnopqrstuvwxyz01234")).data.length = 31 :=
  ⟨by decide, by decide, by decide, by decide⟩

/-- Claim C10, amended: the connection parameters are trimmed of
surrounding whitespace and truncated — the player name to 24 characters
and the room name to 40 characters — before any further processing. -/
theorem C10_sanitize :
    ∀ (s : String),
      sanitizePlayerName (some s) = String.mk ((trimChars s.data).take 24) ∧
      sanitizeRoomName (some s) = String.mk ((trimChars s.data).take 40) ∧
      (sanitizePlayerName (some s)).data.length ≤ 24 ∧
      (sanitizeRoomName (some s)).data.length ≤ 40 ∧
      sanitizePlayerName none = "" ∧ sanitizeRoomName none = "" := by
  intro s
  refine ⟨rfl, rfl, ?_, ?_, by decide, by decide⟩
  · show ((trimChars s.data).take 24).length ≤ 24
    simp [List.length_take]
  · show ((trimChars s.data).take 40).length ≤ 40
    simp [List.length_take]

theorem getTeamForSeat_eq_iff {a b : Nat} :
    getTeamForSeat a = getTeamForSeat b ↔ a % 2 = b % 2 := by
  unfold getTeamForSeat
  by_cases ha : a % 2 = 0 <;> by_cases hb : b % 2 = 0 <;>
    simp [ha, hb] <;> omega

theorem seat_exists {players : List PlayerState} (hlen : players.length = 4)
    (hsd : (players.map (fun q => q.seatIndex)).Nodup)
    (hlt : ∀ q ∈ players, q.seatIndex < 4) :
    ∀ s, s < 4 → ∃ q ∈ players, q.seatIndex = s := by
  intro s hs
  have hsub : (players.map (fun q => q.seatIndex)).toFinset ⊆ Finset.range 4 := by
    intro x hx
    rw [List.mem_toFinset] at hx
    rcases List.mem_map.mp hx with ⟨q, hq, he⟩
    rw [Finset.mem_range]
    exact he ▸ hlt q hq
  have hcard : (players.map (fun q => q.seatIndex)).toFinset.card = 4 := by
    rw [List.toFinset_card_of_nodup hsd]
    simp [hlen]
  have heq : (players.map (fun q => q.seatIndex)).toFinset = Finset.range 4 :=
    Finset.eq_of_subset_of_card_le hsub (by rw [hcard]; simp)
  have hsmem : s ∈ (players.map (fun q => q.seatIndex)).toFinset := by
    rw [heq, Finset.mem_range]
    exact hs
  rw [List.mem_toFinset] at hsmem
  rcases List.mem_map.mp hsmem with ⟨q, hq, he⟩
  exact ⟨q, hq, he⟩

/-- The `find?` used by the loner bookkeeping returns exactly the seat
across from the caller: the unique other player on the caller's team. -/
theorem partner_find {players : List PlayerState} {p : PlayerState} {pid : String}
    (hlen : players.length = 4)
    (hnd : (players.map (fun q => q.id)).Nodup)
    (hsd : (players.map (fun q => q.seatIndex)).Nodup)
    (hlt : ∀ q ∈ players, q.seatIndex < 4)
    (hp : p ∈ players) (hpid : p.id = pid) :
    (players.find? (fun q =>
      getTeamForSeat q.seatIndex == getTeamForSeat p.seatIndex && q.id != pid)).map
      (fun q => q.seatIndex) = some ((p.seatIndex + 2) % 4) := by
  have hps : p.seatIndex < 4 := hlt p hp
  obtain ⟨q0, hq0, hq0s⟩ := seat_exists hlen hsd hlt ((p.seatIndex + 2) % 4) (by omega)
  have hq0ne : q0 ≠ p := by
    intro he
    rw [he] at hq0s
    omega
  have hq0id : q0.id ≠ pid := by
    rw [← hpid]
    intro he
    exact hq0ne (List.inj_on_of_nodup_map hnd hq0 hp he)
  have hq0pred : (getTeamForSeat q0.seatIndex == getTeamForSeat p.seatIndex &&
      q0.id != pid) = true := by
    rw [Bool.and_eq_true]
    constructor
    · rw [beq_iff_eq, getTeamForSeat_eq_iff, hq0s]
      omega
    · rw [bne_iff_ne]
      exact hq0id
  cases hfind : players.find? (fun q =>
      getTeamForSeat q.seatIndex == getTeamForSeat p.seatIndex && q.id != pid) with
  | none =>
    exact absurd hq0pred (by simpa using List.find?_eq_none.mp hfind q0 hq0)
  | some q1 =>
    have hq1 := List.find?_some hfind
    rw [Bool.and_eq_true, beq_iff_eq, bne_iff_ne] at hq1
    have hq1mem := List.mem_of_find?_eq_some hfind
    have hq1ne : q1 ≠ p := fun he => hq1.2 (he ▸ hpid)
    have hq1seat : q1.seatIndex ≠ p.seatIndex := fun he =>
      hq1ne (List.inj_on_of_nodup_map hsd hq1mem hp he)
    have hq1lt := hlt q1 hq1mem
    have hq1par := getTeamForSeat_eq_iff.mp hq1.1
    simp only [Option.map_some', Option.some.injEq]
    omega

/-- Claim C5: when a maker goes alone, the partner's seat is recorded as
`sittingOutSeat` (for both the round-one order-up and the round-two
trump call); a trick resolves when the current trick reaches 3 cards
instead of 4; `nextActiveSeat` never returns the sitting-out seat; and
in every reachable playing state the turn is never on the sitting-out
seat. -/
theorem C5_loner_effects :
    (∀ (room : EuchreRoom) (g : EuchreGameState) (pid : String) (suit : Option Suit)
       (room' : EuchreRoom) (g' : EuchreGameState) (p : PlayerState),
      room.game = some g → getSeatPlayer room g.turnSeat = some p → p.id = pid →
      room.players.length = 4 →
      (room.players.map (fun q => q.id)).Nodup →
      (room.players.map (fun q => q.seatIndex)).Nodup →
      (∀ q ∈ room.players, q.seatIndex < 4) →
      handleChooseTrump room pid suit true = .ok room' → room'.game = some g' →
      g'.sittingOutSeat = some ((p.seatIndex + 2) % 4) ∧
      g'.goingAlonePlayerId = some pid) ∧
    (∀ (room : EuchreRoom) (g : EuchreGameState) (pid : String)
       (room' : EuchreRoom) (g' : EuchreGameState) (p : PlayerState),
      room.game = some g → getSeatPlayer room g.turnSeat = some p → p.id = pid →
      room.players.length = 4 →
      (room.players.map (fun q => q.id)).Nodup →
      (room.players.map (fun q => q.seatIndex)).Nodup →
      (∀ q ∈ room.players, q.seatIndex < 4) →
      handleOrderUp room pid true = .ok room' → room'.game = some g' →
      g'.sittingOutSeat = some ((p.seatIndex + 2) % 4) ∧
      g'.goingAlonePlayerId = some pid) ∧
    (∀ (room : EuchreRoom) (g : EuchreGameState) (s : Nat),
      room.game = some g → g.sittingOutSeat = some s →
      activeSeatCountForPlay room = 3 ∧
      (∀ (pid : String) (cardId : Option String) (room' : EuchreRoom)
        (g' : EuchreGameState),
        handlePlayCard room pid cardId = .ok room' → room'.game = some g' →
        (g'.completedTricks.length = g.completedTricks.length + 1 ↔
          3 ≤ g.currentTrick.length + 1))) ∧
    (∀ (room : EuchreRoom) (g : EuchreGameState) (s fromSeat : Nat),
      room.game = some g → g.sittingOutSeat = some s →
      nextActiveSeat room fromSeat ≠ s) ∧
    (∀ (r : EuchreRoom) (g : EuchreGameState) (s : Nat),
      Reachable r → r.game = some g → g.phase = Phase.playing →
      g.sittingOutSeat = some s → g.turnSeat ≠ s) := by
  refine ⟨?_, ?_, ?_, ?_, ?_⟩
  · -- round-two trump call with alone
    intro room g pid suit room' g' p hg hcp hpid hlen hnd hsd hlt hok hg'
    unfold handleChooseTrump at hok
    rw [hg] at hok
    dsimp only at hok
    split at hok
    next => simp at hok
    next hph =>
      rw [hcp] at hok
      dsimp only at hok
      rw [if_neg (by rw [hpid]; exact fun hne => hne rfl)] at hok
      cases hsu : suit with
      | none => rw [hsu] at hok; simp at hok
      | some su =>
        rw [hsu] at hok
        dsimp only at hok
        split at hok
        next => simp at hok
        next hbl =>
          simp only [Except.ok.injEq] at hok
          subst hok
          unfold startPlayingPhase at hg'
          dsimp only at hg'
          rw [if_neg (by simp)] at hg'
          simp only [Option.some.injEq] at hg'
          subst hg'
          dsimp only
          rw [if_pos trivial, if_pos trivial]
          exact ⟨partner_find hlen hnd hsd hlt (getSeatPlayer_mem hcp) hpid, rfl⟩
  · -- round-one order-up with alone
    intro room g pid room' g' p hg hcp hpid hlen hnd hsd hlt hok hg'
    unfold handleOrderUp at hok
    rw [hg] at hok
    dsimp only at hok
    split at hok
    next => simp at hok
    next hph =>
      rw [hcp] at hok
      dsimp only at hok
      rw [if_neg (by rw [hpid]; exact fun hne => hne rfl)] at hok
      cases hup : g.upcard with
      | none => rw [hup] at hok; simp at hok
      | some upcard =>
        rw [hup] at hok
        dsimp only at hok
        cases hdl : getSeatPlayer room g.dealerSeat with
        | none => rw [hdl] at hok; simp at hok
        | some dealer =>
          rw [hdl] at hok
          dsimp only at hok
          simp only [Except.ok.injEq] at hok
          subst hok
          simp only [Option.some.injEq] at hg'
          subst hg'
          dsimp only
          rw [if_pos trivial, if_pos trivial]
          exact ⟨partner_find hlen hnd hsd hlt (getSeatPlayer_mem hcp) hpid, rfl⟩
  · -- trick completion threshold is 3
    intro room g s hg hs
    have hcount : activeSeatCountForPlay room = 3 := by
      unfold activeSeatCountForPlay
      rw [hg]
      dsimp only
      rw [hs]
      rfl
    refine ⟨hcount, ?_⟩
    intro pid cardId room' g' hok hg'
    unfold handlePlayCard at hok
    rw [hg] at hok
    dsimp only at hok
    split at hok
    next => simp at hok
    next hph =>
      cases hcp : getSeatPlayer room g.turnSeat with
      | none => rw [hcp] at hok; simp at hok
      | some cp =>
        rw [hcp] at hok
        dsimp only at hok
        split at hok
        next => simp at hok
        next hid =>
          split at hok
          next => simp at hok
          next hact =>
            cases hcid : cardId with
            | none => rw [hcid] at hok; simp at hok
            | some cid =>
              rw [hcid] at hok
              dsimp only at hok
              split at hok
              next => simp at hok
              next hlegal =>
                cases hfind : cp.hand.find? (fun c => c.id == cid) with
                | none => rw [hfind] at hok; simp at hok
                | some card =>
                  rw [hfind] at hok
                  dsimp only at hok
                  split at hok
                  next hfull =>
                    -- the trick did not complete
                    unfold activeSeatCountForPlay at hfull
                    dsimp only at hfull
                    rw [hs] at hfull
                    simp only [List.length_append, List.length_cons, List.length_nil,
                      ROOM_SIZE] at hfull
                    simp only [Except.ok.injEq] at hok
                    subst hok
                    simp only [Option.some.injEq] at hg'
                    subst hg'
                    dsimp only
                    omega
                  next hfull =>
                    -- the trick completed at 3 cards
                    unfold activeSeatCountForPlay at hfull
                    dsimp only at hfull
                    rw [hs] at hfull
                    simp only [List.length_append, List.length_cons, List.length_nil,
                      ROOM_SIZE, not_lt] at hfull
                    split at hok
                    next => simp at hok
                    next trump htrv =>
                      split at hok
                      next => simp at hok
                      next w hwf =>
                        split at hok
                        next hti =>
                          simp only [Except.ok.injEq] at hok
                          obtain ⟨hpl, g2, hg2, hg2c⟩ := finalizeHand_game_eq hok rfl
                          rw [hg'] at hg2
                          simp only [Option.some.injEq] at hg2
                          subst hg2
                          dsimp only at hg2c
                          rw [hg2c]
                          simp only [List.length_append, List.length_cons, List.length_nil,
                            true_iff]
                          omega
                        next hti =>
                          simp only [Except.ok.injEq] at hok
                          subst hok
                          simp only [Option.some.injEq] at hg'
                          subst hg'
                          dsimp only
                          simp only [List.length_append, List.length_cons, List.length_nil,
                            true_iff]
                          omega
  · -- the next active seat skips the sitting-out seat
    intro room g s fromSeat hg hs
    exact nextActiveSeat_ne_sittingOut hg hs fromSeat
  · -- the turn never rests on the sitting-out seat
    intro r g s hr hg hph hs
    obtain ⟨htr, hident, hlt, hturn, htrick⟩ :=
      phaseInv_playing ((reachable_inv hr).phaseOk g hg) hph
    exact hturn s hs

/-- Witness for claim C1 at the concrete swept loner hand `sweepRoom`:
all five tricks to the maker team going alone, 4 points, game over. -/
theorem C1_finalize_hand_witness :
    ∃ g', (finalizeHand sweepRoom).game = some g' ∧
      ∃ hs, g'.handSummary = some hs ∧
        hs.makerTeam = TeamId.team0 ∧
        hs.makerTricks = (sweepGame.completedTricks.filter
          (fun tr => getTeamForSeat tr.winnerSeat == TeamId.team0)).length ∧
        hs.makerTricks + hs.defenderTricks = 5 ∧
        (3 ≤ hs.makerTricks → hs.awardedTo = TeamId.team0) ∧
        (hs.makerTricks = 3 ∨ hs.makerTricks = 4 → hs.pointsAwarded = 1) ∧
        (hs.makerTricks = 5 → sweepGame.goingAlonePlayerId = none → hs.pointsAwarded = 2) ∧
        (hs.makerTricks = 5 → sweepGame.goingAlonePlayerId ≠ none → hs.pointsAwarded = 4) ∧
        (hs.makerTricks ≤ 2 →
          hs.awardedTo = (if TeamId.team0 = TeamId.team0 then TeamId.team1 else TeamId.team0) ∧
          hs.pointsAwarded = 2) ∧
        (finalizeHand sweepRoom).score = addScore sweepRoom.score hs.awardedTo hs.pointsAwarded ∧
        g'.phase = (if TARGET_SCORE ≤ (finalizeHand sweepRoom).score.team0 ∨
            TARGET_SCORE ≤ (finalizeHand sweepRoom).score.team1
          then Phase.gameOver else Phase.handOver) :=
  C1_finalize_hand sweepRoom sweepGame TeamId.team0 (by decide) (by decide) (by decide)

/-- Witness for claim C2 at `room10`, where `p1` holds two spades and
must follow the spade lead. -/
theorem C2_legal_plays_witness :
    (room10Game.currentTrick = [] →
      getLegalPlays room10 "p1" = p1AtRoom10.hand.map (fun c => c.id)) ∧
    (∀ lead rest, room10Game.currentTrick = lead :: rest →
      (∀ cid ∈ getLegalPlays room10 "p1", ∃ c ∈ p1AtRoom10.hand, c.id = cid ∧
         effectiveSuit c Suit.spades = effectiveSuit lead.card Suit.spades) ∨
      ((∀ c ∈ p1AtRoom10.hand,
          effectiveSuit c Suit.spades ≠ effectiveSuit lead.card Suit.spades) ∧
         getLegalPlays room10 "p1" = p1AtRoom10.hand.map (fun c => c.id))) :=
  C2_legal_plays room10 "p1" room10Game p1AtRoom10 Suit.spades (by decide) (by decide)
    (by decide) (by decide)
    (by
      intro s hs
      rw [show room10Game.sittingOutSeat = some 2 from by decide] at hs
      injection hs with h
      subst h
      decide)
    (by decide)

/-- Witness for claim C3: the rank table at the right bower, and the
recorded winner of the trace's completed loner trick. -/
theorem C3_trick_winner_witness :
    rankStrength ⟨"spades-J-1", Suit.spades, Rank.rJ⟩ (some Suit.spades) (some Suit.spades) =
      rankStrengthSpec Suit.spades Rank.rJ Suit.spades Suit.spades ∧
    (∃ trump, room11Game.trump = some trump ∧
      ∃ w ∈ lonerMidTrick.cards,
        (∃ p ∈ lonerMidRoom.players, p.id = w.playerId ∧
          lonerMidTrick.winnerSeat = p.seatIndex) ∧
        ∀ c0 rest, lonerMidTrick.cards = c0 :: rest →
          ∀ q ∈ lonerMidTrick.cards,
            rankStrength q.card (some trump) (some (effectiveSuit c0.card trump)) ≤
              rankStrength w.card (some trump) (some (effectiveSuit c0.card trump))) :=
  ⟨C3_trick_winner.1 "spades-J-1" Suit.spades Rank.rJ Suit.spades Suit.spades,
   C3_trick_winner.2 room11 "p3" (some "hearts-9-1") lonerMidRoom room11Game lonerMidGame
     lonerMidTrick rfl (by decide) rfl (by decide)⟩

/-- Witness for claim C5 on the trace: the round-two loner call and a
round-one alone order-up both bench seat 2 (partner of seat 0); the
loner hand plays with 3 active seats, and the first play does not yet
complete the trick; `nextActiveSeat` skips the benched seat; and after
the completed trick the turn is not on the benched seat. -/
theorem C5_loner_effects_witness :
    (room9Game.sittingOutSeat = some ((p0AtRoom8.seatIndex + 2) % 4) ∧
      room9Game.goingAlonePlayerId = some "p0") ∧
    (orderUpAloneGame.sittingOutSeat = some ((p0AtRoom4.seatIndex + 2) % 4) ∧
      orderUpAloneGame.goingAlonePlayerId = some "p0") ∧
    activeSeatCountForPlay room9 = 3 ∧
    (room10Game.completedTricks.length = room9Game.completedTricks.length + 1 ↔
      3 ≤ room9Game.currentTrick.length + 1) ∧
    nextActiveSeat room9 0 ≠ 2 ∧
    lonerMidGame.turnSeat ≠ 2 :=
  ⟨C5_loner_effects.1 room8 room8Game "p0" (some Suit.spades) room9 room9Game p0AtRoom8
      (by decide) (by decide) (by decide) (by decide) (by decide) (by decide) (by decide)
      rfl (by decide),
   C5_loner_effects.2.1 room4 room4Game "p0" orderUpAloneRoom orderUpAloneGame p0AtRoom4
      (by decide) (by decide) (by decide) (by decide) (by decide) (by decide) (by decide)
      rfl (by decide),
   (C5_loner_effects.2.2.1 room9 room9Game 2 (by decide) (by decide)).1,
   (C5_loner_effects.2.2.1 room9 room9Game 2 (by decide) (by decide)).2 "p0"
      (some "spades-J-1") room10 room10Game rfl (by decide),
   C5_loner_effects.2.2.2.1 room9 room9Game 2 0 (by decide) (by decide),
   C5_loner_effects.2.2.2.2 lonerMidRoom lonerMidGame 2 reachable_lonerMidRoom rfl
      (by decide) (by decide)⟩

/-- Witness for claim C7 at `roomC7`, whose dealer passes in round two. -/
theorem C7_all_pass_redeal_witness :
    ∃ room', handlePass deck1 roomC7 "q2" = .ok room' ∧
      ∃ g', room'.game = some g' ∧
        g'.phase = Phase.biddingRound1 ∧
        g'.dealerSeat = nextSeat roomC7Game.dealerSeat ∧
        g'.turnSeat = nextSeat g'.dealerSeat ∧
        room'.score = roomC7.score ∧
        room'.players = dealHands deck1 roomC7.players ∧
        g'.upcard = (deck1.drop 20).head? ∧
        g'.kitty = deck1.drop 21 ∧
        g'.trump = none ∧ g'.blockedSuit = none :=
  C7_all_pass_redeal deck1 roomC7 roomC7Game q2AtRoomC7 "q2" (by decide) (by decide)
    (by decide) (by decide) (by decide) (by decide)

/-- Witness for claim C8 at `room8`: choosing the turned-down suit
fails, the room is unchanged, and only the sender gets an error frame. -/
theorem C8_error_isolated_witness :
    handleChooseTrump room8 "p0" (some Suit.hearts) false =
      .error "You cannot choose the turned-down suit." ∧
    room8Game.turnSeat = p0AtRoom8.seatIndex ∧
    webSocketMessageModel ctx1 traceSessions room8 sender1
      (ClientAction.chooseTrump (some Suit.hearts) false) =
      (room8, [(sender1.sessionId,
        ServerFrame.error "You cannot choose the turned-down suit.")]) :=
  have h := C8_error_isolated.2 room8 room8Game p0AtRoom8 "p0" Suit.hearts false
    (by decide) (by decide) (by decide) (by decide) (by decide)
  ⟨h.1, h.2.1, h.2.2 ctx1 traceSessions sender1 rfl⟩

/-- Witness for the amended claim C9 at the reachable post-order-up
room, for viewer `p1`. -/
theorem C9_snapshot_privacy_witness :
    (∀ y, (buildClientState orderUpRoom "p1").you = some y →
      ∃ me ∈ orderUpRoom.players, me.id = "p1" ∧ y.hand = me.hand) ∧
    (∀ pv ∈ (buildClientState orderUpRoom "p1").players,
      ∃ p ∈ orderUpRoom.players, pv.id = p.id ∧ pv.handCount = p.hand.length) ∧
    (∀ c ∈ cardsInView (buildClientState orderUpRoom "p1"),
      (∃ me ∈ orderUpRoom.players, me.id = "p1" ∧ c ∈ me.hand) ∨
      (∃ g, orderUpRoom.game = some g ∧
        (g.upcard = some c ∨ (∃ play ∈ g.currentTrick, play.card = c) ∨
         (∃ t ∈ g.completedTricks, ∃ play ∈ t.cards, play.card = c)))) :=
  C9_snapshot_privacy orderUpRoom "p1"

/-- Witness for the amended claim C10 at a concrete padded name. -/
theorem C10_sanitize_witness :
    sanitizePlayerName (some "  Alice  ") = String.mk ((trimChars "  Alice  ".data).take 24) ∧
    sanitizeRoomName (some "  Alice  ") = String.mk ((trimChars "  Alice  ".data).take 40) ∧
    (sanitizePlayerName (some "  Alice  ")).data.length ≤ 24 ∧
    (sanitizeRoomName (some "  Alice  ")).data.length ≤ 40 ∧
    sanitizePlayerName none = "" ∧ sanitizeRoomName none = "" :=
  C10_sanitize "  Alice  "

end Euchre

